import Mathlib

/-!
# AmbientSynth: the audio processor of `PluginProcessor.cpp`

A shallow embedding of `NewProjectAudioProcessor` and the properties of its
voice pool, MIDI routing, mixing stage, parameter setters and reverb stage.

Conventions of the embedding:

* `float` values that enter arithmetic (audio samples, gains, parameter values
  and ranges) are IEEE-754 binary32 values, `F32`: a finite rational, an
  infinity or NaN, with every arithmetic result rounded to nearest, ties to
  even; the sign of zero is not modelled. A `float` that is only stored or
  passed on (note velocities, reverb parameters) is carried as a rational;
* C++ `int` values are `Int` (no arithmetic in the embedded code can overflow);
* classes declared in headers that are not part of `PluginProcessor.cpp`
  (`SynthVoice`, `WavetableSynthesizer`, `Sampler`) are type parameters, and
  their member functions are function parameters, so every theorem holds for
  any implementation of them;
* JUCE library calls are embedded by their documented behaviour.
-/

set_option autoImplicit false

namespace AmbientSynth

/-! ## Voice pool (`synthVoices`, `triggerNoteOn`) -/

section VoicePool

variable {Voice : Type}

/-- Embedding of `NewProjectAudioProcessor::triggerNoteOn`: walk `synthVoices` in pool
order; the first voice with `!voice.isActive()` gets `startNote` and the loop
breaks. When the loop runs off the end nothing else is executed. -/
def triggerNoteOn (isActive : Voice → Bool) (startNote : Voice → Int → ℚ → Voice) :
    List Voice → Int → ℚ → List Voice
  | [], _, _ => []
  | voice :: rest, noteNumber, velocity =>
    if !isActive voice then
      startNote voice noteNumber velocity :: rest
    else
      voice :: triggerNoteOn isActive startNote rest noteNumber velocity

/-- Number of voices of the pool for which `isActive()` holds. -/
def activeCount (isActive : Voice → Bool) (pool : List Voice) : Nat :=
  pool.countP isActive

/-- A sequence of `triggerNoteOn` calls, given as (noteNumber, velocity) pairs,
applied in order. -/
def triggerAll (isActive : Voice → Bool) (startNote : Voice → Int → ℚ → Voice)
    (pool : List Voice) (calls : List (Int × ℚ)) : List Voice :=
  calls.foldl (fun p c => triggerNoteOn isActive startNote p c.1 c.2) pool

end VoicePool

/-- Modelled from the spec: the `SynthVoice` class (`SynthVoice.h`) is not part
of the available sources. The spec's data model gives a voice an `active` flag,
an integer note number and a velocity; starting a note records both and makes
the voice active. Used only to build concrete pools. -/
structure SynthVoice where
  active : Bool
  note : Int
  velocity : ℚ
  deriving DecidableEq, Repr

/-- Modelled from the spec: `SynthVoice::isActive`. -/
def SynthVoice.isActive (v : SynthVoice) : Bool := v.active

/-- Modelled from the spec: `SynthVoice::startNote`, which makes the voice
active on the given note and velocity. -/
def SynthVoice.startNote (_v : SynthVoice) (noteNumber : Int) (velocity : ℚ) : SynthVoice :=
  { active := true, note := noteNumber, velocity := velocity }

/-! ## MIDI routing (`handleMidiEvent`) -/

/-- The three ways `handleMidiEvent` can classify a `juce::MidiMessage`:
`isNoteOn()` holds, `isNoteOff()` holds, or neither. JUCE never reports both
for one message (a note-on with velocity 0 counts as a note-off only). -/
inductive MidiKind where
  | noteOn
  | noteOff
  | other
  deriving DecidableEq, Repr

/-- A `juce::MidiMessage` as seen through the observers used by
`handleMidiEvent`: its classification, `getNoteNumber()` and
`getFloatVelocity()`. -/
structure MidiMessage where
  kind : MidiKind
  noteNumber : Int
  floatVelocity : ℚ
  deriving DecidableEq, Repr

/-- Library function `juce::MidiMessage::isNoteOn`. -/
def MidiMessage.isNoteOn (m : MidiMessage) : Bool := m.kind == MidiKind.noteOn

/-- Library function `juce::MidiMessage::isNoteOff`. -/
def MidiMessage.isNoteOff (m : MidiMessage) : Bool := m.kind == MidiKind.noteOff

/-! ## Single-precision floating point -/

/-- Round a rational to the nearest integer, a tie going to the even one. -/
def roundHalfEven (y : ℚ) : ℤ :=
  if y - ⌊y⌋ < 1 / 2 then ⌊y⌋
  else if 1 / 2 < y - ⌊y⌋ then ⌊y⌋ + 1
  else if ⌊y⌋ % 2 = 0 then ⌊y⌋
  else ⌊y⌋ + 1

/-- A C++ `float` (IEEE-754 binary32): a finite value, given by the rational it
stands for, one of the two infinities, or NaN. The sign of zero is not
modelled. -/
inductive F32 where
  | finite (q : ℚ)
  | posInf
  | negInf
  | nan
  deriving DecidableEq

namespace F32

/-- Exponent of the unit in the last place at `q`: a binary32 significand has
24 bits, and below `2 ^ (-126)` the spacing stays at `2 ^ (-149)`. -/
def ulpExponent (q : ℚ) : ℤ := max (Int.log 2 |q| - 23) (-149)

/-- Round to nearest, ties to even, on the binary32 grid (without the overflow
check). -/
def roundRat (q : ℚ) : ℚ := roundHalfEven (q / 2 ^ ulpExponent q) * 2 ^ ulpExponent q

/-- The `float` result of an operation whose exact value is `q`: `q` rounded
to nearest, and an infinity when the rounded value reaches `2 ^ 128`. Also the
value of a decimal literal such as `0.1f`. -/
def ofRat (q : ℚ) : F32 :=
  if 2 ^ 128 ≤ roundRat q then posInf
  else if roundRat q ≤ -2 ^ 128 then negInf
  else finite (roundRat q)

/-- Unary minus on `float`. -/
def neg : F32 → F32
  | finite q => finite (-q)
  | posInf => negInf
  | negInf => posInf
  | nan => nan

/-- Addition on `float`. -/
def add : F32 → F32 → F32
  | finite a, finite b => ofRat (a + b)
  | nan, _ => nan
  | _, nan => nan
  | posInf, negInf => nan
  | negInf, posInf => nan
  | posInf, _ => posInf
  | _, posInf => posInf
  | negInf, _ => negInf
  | _, negInf => negInf

/-- Subtraction on `float`. -/
def sub (a b : F32) : F32 := a.add b.neg

/-- Multiplication on `float`. -/
def mul : F32 → F32 → F32
  | finite a, finite b => ofRat (a * b)
  | nan, _ => nan
  | _, nan => nan
  | finite a, posInf => if a = 0 then nan else if 0 < a then posInf else negInf
  | finite a, negInf => if a = 0 then nan else if 0 < a then negInf else posInf
  | posInf, finite b => if b = 0 then nan else if 0 < b then posInf else negInf
  | negInf, finite b => if b = 0 then nan else if 0 < b then negInf else posInf
  | posInf, posInf => posInf
  | negInf, negInf => posInf
  | posInf, negInf => negInf
  | negInf, posInf => negInf

/-- Division on `float`. -/
def div : F32 → F32 → F32
  | finite a, finite b =>
    if b = 0 then (if a = 0 then nan else if 0 < a then posInf else negInf)
    else ofRat (a / b)
  | nan, _ => nan
  | _, nan => nan
  | finite _, posInf => finite 0
  | finite _, negInf => finite 0
  | posInf, finite b => if 0 ≤ b then posInf else negInf
  | negInf, finite b => if 0 ≤ b then negInf else posInf
  | posInf, posInf => nan
  | posInf, negInf => nan
  | negInf, posInf => nan
  | negInf, negInf => nan

/-- Comparison `a < b` on `float`; false whenever an operand is NaN. -/
def lt : F32 → F32 → Bool
  | finite a, finite b => decide (a < b)
  | nan, _ => false
  | _, nan => false
  | negInf, negInf => false
  | negInf, _ => true
  | _, negInf => false
  | posInf, _ => false
  | finite _, posInf => true

/-- Whether the value is one a `float` variable can hold: an infinity, NaN, or
a finite rational that rounding leaves unchanged. -/
def isFloat : F32 → Bool
  | finite q => decide (ofRat q = finite q)
  | _ => true

/-- What `AudioBuffer::addFrom` does to one destination sample `d` for source
sample `s`: nothing when the gain is zero (JUCE skips the call on
`gain != 0` being false), otherwise `d + s * gain`. -/
def addWithGain (d s gain : F32) : F32 :=
  if gain = finite 0 then d else d.add (s.mul gain)

end F32

/-- The value `jlimit` gives on finite operands. -/
def clampRat (lo hi x : ℚ) : ℚ :=
  if x < lo then lo else if hi < x then hi else x

/-- Library call `juce::jlimit (lowerLimit, upperLimit, value)` on `float`:
`value < lowerLimit ? lowerLimit : (upperLimit < value ? upperLimit : value)`. -/
def jlimit (lowerLimit upperLimit value : F32) : F32 :=
  if value.lt lowerLimit then lowerLimit
  else if upperLimit.lt value then upperLimit
  else value

/-! ## Audio buffers -/

/-- A `juce::AudioBuffer<float>`: channel count, sample count and contents
(read as `sample channel index`; only indices inside the shape are meaningful). -/
structure AudioBuffer where
  numChannels : Nat
  numSamples : Nat
  sample : Nat → Nat → F32

/-- Constructor `AudioBuffer(numChannels, numSamples)`: a fresh buffer of the given shape.
Its contents are unspecified in C++; every use in `processBlock` clears it
before it is read. -/
def AudioBuffer.alloc (numChannels numSamples : Nat) : AudioBuffer :=
  { numChannels := numChannels, numSamples := numSamples, sample := fun _ _ => F32.finite 0 }

/-- Library function `AudioBuffer::clear`: every sample becomes zero, the shape is kept. -/
def AudioBuffer.clear (b : AudioBuffer) : AudioBuffer :=
  { b with sample := fun _ _ => F32.finite 0 }

/-- Library call `AudioBuffer::addFrom (destChannel, destStartSample, source, sourceChannel,
sourceStartSample, numSamples, gain)`: adds `gain * source` onto the given
range of the destination channel, sample by sample in `float` arithmetic (see
`F32.addWithGain`). The call is only defined when both ranges lie inside their
buffers (JUCE asserts it); otherwise the result is `none`. -/
def AudioBuffer.addFrom (dest : AudioBuffer) (destChannel destStartSample : Nat)
    (source : AudioBuffer) (sourceChannel sourceStartSample numSamples : Nat) (gain : F32) :
    Option AudioBuffer :=
  if destChannel < dest.numChannels ∧ destStartSample + numSamples ≤ dest.numSamples ∧
      sourceChannel < source.numChannels ∧ sourceStartSample + numSamples ≤ source.numSamples then
    some { dest with
      sample := fun c i =>
        if c = destChannel ∧ destStartSample ≤ i ∧ i < destStartSample + numSamples then
          F32.addWithGain (dest.sample c i)
            (source.sample sourceChannel (sourceStartSample + (i - destStartSample))) gain
        else dest.sample c i }
  else none

/-! ## Engines -/

/-- The two sound engines owned by the processor (`wavetableSynth`, `sampler`). -/
structure Engines (Synth Sampler : Type) where
  wavetableSynth : Synth
  sampler : Sampler

/-- Member functions of `WavetableSynthesizer` and `Sampler` called from
`PluginProcessor.cpp`. Their classes live in headers outside this file, so they
are parameters of the embedding. `renderNextBlock` receives the engine, the
output buffer, the MIDI buffer, start sample and sample count, and returns the
engine and the buffer it wrote. -/
structure EngineOps (Synth Sampler : Type) where
  synthHandleNoteOn : Synth → Int → ℚ → Synth
  synthHandleNoteOff : Synth → Int → ℚ → Synth
  samplerHandleNoteOn : Sampler → Int → ℚ → Sampler
  samplerHandleNoteOff : Sampler → Int → ℚ → Sampler
  synthSetWaveform : Synth → Int → Synth
  synthRenderNextBlock : Synth → AudioBuffer → List MidiMessage → Nat → Nat → Synth × AudioBuffer
  samplerRenderNextBlock : Sampler → AudioBuffer → List MidiMessage → Nat → Nat → Sampler × AudioBuffer

section Processor

variable {Synth Sampler : Type}

/-- Embedding of `NewProjectAudioProcessor::handleMidiEvent`. -/
def handleMidiEvent (ops : EngineOps Synth Sampler) (st : Engines Synth Sampler)
    (message : MidiMessage) : Engines Synth Sampler :=
  if message.isNoteOn then
    let noteNumber := message.noteNumber
    let velocity := message.floatVelocity
    { wavetableSynth := ops.synthHandleNoteOn st.wavetableSynth noteNumber velocity
      sampler := ops.samplerHandleNoteOn st.sampler noteNumber velocity }
  else if message.isNoteOff then
    let noteNumber := message.noteNumber
    let velocity := message.floatVelocity
    { wavetableSynth := ops.synthHandleNoteOff st.wavetableSynth noteNumber velocity
      sampler := ops.samplerHandleNoteOff st.sampler noteNumber velocity }
  else st

/-- The loop `for (const auto midiMessage : midiMessages) handleMidiEvent(...)`
of `processBlock`, over the messages in the buffer's iteration order. -/
def processMidiMessages (ops : EngineOps Synth Sampler) :
    Engines Synth Sampler → List MidiMessage → Engines Synth Sampler
  | st, [] => st
  | st, midiMessage :: rest => processMidiMessages ops (handleMidiEvent ops st midiMessage) rest

/-- The mix-down loop of `processBlock` over the channels still to be done:
each channel gets the synth buffer with gain `mixLevel` and then the sample
buffer with gain `1.0f - mixLevel`. -/
def mixDown (synthBuffer sampleBuffer : AudioBuffer) (mixLevel : F32) :
    List Nat → AudioBuffer → Option AudioBuffer
  | [], buffer => some buffer
  | channel :: rest, buffer =>
    (buffer.addFrom channel 0 synthBuffer channel 0 buffer.numSamples mixLevel).bind fun b1 =>
    (b1.addFrom channel 0 sampleBuffer channel 0 b1.numSamples
      ((F32.finite 1).sub mixLevel)).bind fun b2 =>
    mixDown synthBuffer sampleBuffer mixLevel rest b2

/-- The locals of `processBlock` at the point where `applyDSP(buffer)` is about
to be called. -/
structure BlockState (Synth Sampler : Type) where
  engines : Engines Synth Sampler
  synthBuffer : AudioBuffer
  sampleBuffer : AudioBuffer
  buffer : AudioBuffer

/-- The mix level read by `processBlock`:
`float mixLevel = mixParam ? mixParam->load() : 0.5f;` -/
def mixLevelOf (mixParam : Option F32) : F32 :=
  match mixParam with
  | some v => v
  | none => F32.finite (1 / 2)

/-- Embedding of `NewProjectAudioProcessor::processBlock` up to, and not including, the call
`applyDSP(buffer)`. `mixParam` is the result of
`apvts.getRawParameterValue("mix")`. -/
def processBlockMix (ops : EngineOps Synth Sampler) (mixParam : Option F32)
    (st : Engines Synth Sampler) (buffer : AudioBuffer) (midiMessages : List MidiMessage) :
    Option (BlockState Synth Sampler) :=
  let mixLevel := mixLevelOf mixParam
  let buffer := buffer.clear
  let synthBuffer := (AudioBuffer.alloc buffer.numChannels buffer.numSamples).clear
  let sampleBuffer := (AudioBuffer.alloc buffer.numChannels buffer.numSamples).clear
  let st := processMidiMessages ops st midiMessages
  let rs := ops.synthRenderNextBlock st.wavetableSynth synthBuffer midiMessages 0 synthBuffer.numSamples
  let rp := ops.samplerRenderNextBlock st.sampler sampleBuffer midiMessages 0 sampleBuffer.numSamples
  (mixDown rs.2 rp.2 mixLevel (List.range buffer.numChannels) buffer).map fun mixed =>
    { engines := { wavetableSynth := rs.1, sampler := rp.1 }
      synthBuffer := rs.2
      sampleBuffer := rp.2
      buffer := mixed }

/-- Embedding of `NewProjectAudioProcessor::processBlock`; the chorus and reverb stages of
`applyDSP` are black boxes acting on the mixed buffer. -/
def processBlock (ops : EngineOps Synth Sampler) (applyDSP : AudioBuffer → AudioBuffer)
    (mixParam : Option F32) (st : Engines Synth Sampler) (buffer : AudioBuffer)
    (midiMessages : List MidiMessage) : Option (Engines Synth Sampler × AudioBuffer) :=
  (processBlockMix ops mixParam st buffer midiMessages).map fun r => (r.engines, applyDSP r.buffer)

/-- Embedding of `NewProjectAudioProcessor::setWaveform`; `numWaveforms` is
`static_cast<int>(WavetableSynthesizer::Waveform::NumWaveforms)`. The `else`
branch only prints a debug message. -/
def setWaveform (ops : EngineOps Synth Sampler) (numWaveforms : Int)
    (st : Engines Synth Sampler) (type : Int) : Engines Synth Sampler :=
  if 0 ≤ type ∧ type < numWaveforms then
    { st with wavetableSynth := ops.synthSetWaveform st.wavetableSynth type }
  else st

end Processor

/-! ## Effects stage (`applyDSP`, `setReverbLevel`) -/

/-- The stereo reverb loop of `applyDSP`,
`for (channel = 0; channel < numChannels; channel += 2)`, started at `channel`:
the channel indices handed to `getWritePointer`, in call order. Every iteration
asks for `channel` and for `channel + 1`. -/
def reverbStereoLoop (numChannels channel : Nat) : List Nat :=
  if channel < numChannels then
    channel :: (channel + 1) :: reverbStereoLoop numChannels (channel + 2)
  else []
termination_by numChannels - channel

/-- The reverb stage of `NewProjectAudioProcessor::applyDSP` for a buffer with
`numChannels` channels: every channel index passed to `getWritePointer`. With
two or more channels the stereo loop runs, otherwise channel 0 is processed
in mono. -/
def applyDSPWritePointers (numChannels : Nat) : List Nat :=
  if numChannels ≥ 2 then reverbStereoLoop numChannels 0 else [0]

/-- The fields of `juce::Reverb::Parameters`. -/
structure ReverbParameters where
  roomSize : ℚ
  damping : ℚ
  wetLevel : ℚ
  dryLevel : ℚ
  width : ℚ
  freezeMode : ℚ
  deriving DecidableEq, Repr

/-- The `juce::Reverb` member as far as `setReverbLevel` uses it:
`getParameters()` returns the stored parameters and `setParameters(p)` stores
`p` as given. -/
structure Reverb where
  parameters : ReverbParameters
  deriving DecidableEq, Repr

/-- Library function `juce::Reverb::getParameters`. -/
def Reverb.getParameters (r : Reverb) : ReverbParameters := r.parameters

/-- Library function `juce::Reverb::setParameters`. -/
def Reverb.setParameters (_r : Reverb) (newParams : ReverbParameters) : Reverb :=
  { parameters := newParams }

/-- Embedding of `NewProjectAudioProcessor::setReverbLevel`: copy the current parameters,
overwrite `roomSize` with `level`, store the copy back. -/
def setReverbLevel (reverb : Reverb) (level : ℚ) : Reverb :=
  let params := reverb.getParameters
  let params := { params with roomSize := level }
  reverb.setParameters params

/-! ## Host parameters (`createParameterLayout`, `setFilterCutoff`) -/

/-- Library function `juce::jlimit` on `int`. -/
def jlimitInt (lowerLimit upperLimit value : Int) : Int :=
  if value < lowerLimit then lowerLimit
  else if upperLimit < value then upperLimit
  else value

/-- A `juce::NormalisableRange<float>` built by the two-argument constructor
`NormalisableRange (start, end)`: linear, no snapping interval, no skew. -/
structure NormalisableRange where
  start : F32
  stop : F32
  deriving DecidableEq

/-- Library function `NormalisableRange::convertTo0to1` for a linear range:
`clampTo0To1 ((v - start) / (end - start))`. -/
def NormalisableRange.convertTo0to1 (r : NormalisableRange) (v : F32) : F32 :=
  jlimit (F32.finite 0) (F32.finite 1) ((v.sub r.start).div (r.stop.sub r.start))

/-- Library function `NormalisableRange::convertFrom0to1` for a linear range:
`start + (end - start) * proportion`. -/
def NormalisableRange.convertFrom0to1 (r : NormalisableRange) (proportion : F32) : F32 :=
  r.start.add ((r.stop.sub r.start).mul proportion)

/-- Library function `NormalisableRange::snapToLegalValue` for a range without interval. -/
def NormalisableRange.snapToLegalValue (r : NormalisableRange) (v : F32) : F32 :=
  jlimit r.start r.stop v

/-- A parameter of the `AudioProcessorValueTreeState`: its ID, its declared
range and the normalised value last published to the host. -/
structure Parameter where
  paramID : String
  range : NormalisableRange
  value : F32
  deriving DecidableEq

/-- Library function `RangedAudioParameter::convertTo0to1`: snap to the range, then normalise. -/
def Parameter.convertTo0to1 (p : Parameter) (v : F32) : F32 :=
  p.range.convertTo0to1 (p.range.snapToLegalValue v)

/-- Library function `RangedAudioParameter::convertFrom0to1`. -/
def Parameter.convertFrom0to1 (p : Parameter) (v : F32) : F32 :=
  p.range.snapToLegalValue (p.range.convertFrom0to1 (jlimit (F32.finite 0) (F32.finite 1) v))

/-- Library function `AudioProcessorParameter::setValueNotifyingHost`: the normalised value
becomes the published value of the parameter. -/
def Parameter.setValueNotifyingHost (p : Parameter) (newValue : F32) : Parameter :=
  { p with value := newValue }

/-- One `layout.add (... Parameter (id, name, NormalisableRange (lo, hi), default))`
line of `createParameterLayout`. -/
def makeParameter (paramID : String) (lo hi defaultValue : F32) : Parameter :=
  let range : NormalisableRange := { start := lo, stop := hi }
  { paramID := paramID, range := range, value := range.convertTo0to1 defaultValue }

/-- Embedding of `NewProjectAudioProcessor::createParameterLayout`. Literals
that binary32 holds exactly are written `F32.finite`; `0.1f` and `0.8f` are the
roundings of 1/10 and 4/5. -/
def createParameterLayout : List Parameter :=
  [ makeParameter "mix" (F32.finite 0) (F32.finite 1) (F32.finite (1 / 2)),
    makeParameter "filterCutoff" (F32.finite 20) (F32.finite 20000) (F32.finite 2000),
    makeParameter "filterResonance" (F32.ofRat (1 / 10)) (F32.finite 10) (F32.finite 1),
    makeParameter "lfoRate" (F32.ofRat (1 / 10)) (F32.finite 20) (F32.finite 5),
    makeParameter "lfoDepth" (F32.finite 0) (F32.finite 1) (F32.finite (1 / 2)),
    makeParameter "attack" (F32.ofRat (1 / 10)) (F32.finite 5) (F32.finite (1 / 2)),
    makeParameter "decay" (F32.ofRat (1 / 10)) (F32.finite 5) (F32.finite 1),
    makeParameter "sustain" (F32.finite 0) (F32.finite 1) (F32.ofRat (4 / 5)),
    makeParameter "release" (F32.ofRat (1 / 10)) (F32.finite 5) (F32.finite (3 / 2)) ]

/-- Library function `AudioProcessorValueTreeState::getParameter`: the parameter with the given
ID, or `none` (the null pointer). -/
def getParameter (apvts : List Parameter) (paramID : String) : Option Parameter :=
  apvts.find? fun p => p.paramID == paramID

/-- Write a modified parameter object back over the one `getParameter` returns
for its ID (the C++ code mutates it through the pointer). -/
def storeParameter : List Parameter → Parameter → List Parameter
  | [], _ => []
  | p :: rest, q => if p.paramID == q.paramID then q :: rest else p :: storeParameter rest q

/-- Embedding of `NewProjectAudioProcessor::setFilterCutoff`. The `else` branch only prints a
debug message. -/
def setFilterCutoff (apvts : List Parameter) (cutoff : F32) : List Parameter :=
  match getParameter apvts "filterCutoff" with
  | some param =>
    let normalizedCutoff := param.convertTo0to1 (jlimit (F32.finite 20) (F32.finite 20000) cutoff)
    storeParameter apvts (param.setValueNotifyingHost normalizedCutoff)
  | none => apvts

/-! ## Concrete inputs used to evaluate the embedding -/

/-- A pool of two voices, both sounding (notes 60 and 64). -/
def fullPool : List SynthVoice :=
  [ { active := true, note := 60, velocity := 1 },
    { active := true, note := 64, velocity := 1 } ]

/-- A pool of three voices: the first sounding, the other two idle. -/
def partlyIdlePool : List SynthVoice :=
  [ { active := true, note := 60, velocity := 1 },
    { active := false, note := 0, velocity := 0 },
    { active := false, note := 0, velocity := 0 } ]

/-- A small synth for evaluating the processor: the number of its current
waveform and the notes it holds, most recent first. -/
structure DemoSynth where
  waveform : Int
  held : List Int
  deriving DecidableEq, Repr

/-- A small engine pair for evaluating the processor: the synth is a
`DemoSynth`, the sampler is the list of notes it holds, a note-on pushes the
note, a note-off removes it, and each engine renders the constant signal 1 into
the buffer it is given. -/
def demoOps : EngineOps DemoSynth (List Int) where
  synthHandleNoteOn := fun s n _ => { s with held := n :: s.held }
  synthHandleNoteOff := fun s n _ => { s with held := s.held.erase n }
  samplerHandleNoteOn := fun s n _ => n :: s
  samplerHandleNoteOff := fun s n _ => s.erase n
  synthSetWaveform := fun s w => { s with waveform := w }
  synthRenderNextBlock := fun s b _ _ _ => (s, { b with sample := fun _ _ => F32.finite 1 })
  samplerRenderNextBlock := fun s b _ _ _ => (s, { b with sample := fun _ _ => F32.finite 1 })

/-- The demo engine pair with a quieter sampler: it renders the constant
signal `3 / 2 ^ 25` (a binary32 value) instead of 1. -/
def quietSamplerOps : EngineOps DemoSynth (List Int) :=
  { demoOps with
    samplerRenderNextBlock := fun s b _ _ _ =>
      (s, { b with sample := fun _ _ => F32.finite (3 / 33554432) }) }

/-- The demo engines with waveform 0 and no note held. -/
def demoEngines : Engines DemoSynth (List Int) :=
  { wavetableSynth := { waveform := 0, held := [] }, sampler := [] }

/-- A reverb holding the default values of `juce::Reverb::Parameters`. -/
def defaultReverb : Reverb :=
  { parameters :=
      { roomSize := 1 / 2, damping := 1 / 2, wetLevel := 33 / 100, dryLevel := 2 / 5,
        width := 1, freezeMode := 0 } }

/-! ### Helper lemmas on the voice pool -/

section VoicePoolLemmas

variable {Voice : Type} (isActive : Voice → Bool) (startNote : Voice → Int → ℚ → Voice)

theorem triggerNoteOn_length (pool : List Voice) (n : Int) (vel : ℚ) :
    (triggerNoteOn isActive startNote pool n vel).length = pool.length := by
  induction pool with
  | nil => rfl
  | cons v rest ih =>
    by_cases h : isActive v <;> simp [triggerNoteOn, h, ih]

theorem activeCount_le_length (pool : List Voice) :
    activeCount isActive pool ≤ pool.length :=
  List.countP_le_length _

theorem activeCount_triggerNoteOn_le (pool : List Voice) (n : Int) (vel : ℚ) :
    activeCount isActive (triggerNoteOn isActive startNote pool n vel)
      ≤ activeCount isActive pool + 1 := by
  induction pool with
  | nil => simp [triggerNoteOn, activeCount]
  | cons v rest ih =>
    unfold activeCount at ih ⊢
    by_cases h : isActive v
    · simp only [triggerNoteOn, h, Bool.not_true, Bool.false_eq_true, if_false]
      rw [List.countP_cons_of_pos _ _ h, List.countP_cons_of_pos _ _ h]
      omega
    · simp only [triggerNoteOn, h, Bool.not_false, if_true]
      rw [List.countP_cons, List.countP_cons]
      simp only [h, Bool.false_eq_true, if_false]
      split <;> omega

theorem triggerAll_length (pool : List Voice) (calls : List (Int × ℚ)) :
    (triggerAll isActive startNote pool calls).length = pool.length := by
  induction calls generalizing pool with
  | nil => rfl
  | cons c cs ih =>
    simp only [triggerAll, List.foldl_cons] at ih ⊢
    rw [ih, triggerNoteOn_length]

end VoicePoolLemmas

/-! ### Helper lemmas on MIDI routing and mixing -/

section ProcessorLemmas

variable {Synth Sampler : Type}

theorem processMidiMessages_eq_foldl (ops : EngineOps Synth Sampler)
    (st : Engines Synth Sampler) (midiMessages : List MidiMessage) :
    processMidiMessages ops st midiMessages = midiMessages.foldl (handleMidiEvent ops) st := by
  induction midiMessages generalizing st with
  | nil => rfl
  | cons m rest ih => simp [processMidiMessages, ih]

theorem addFrom_whole_channel (dest source : AudioBuffer) (channel : Nat) (gain : F32)
    (hd : channel < dest.numChannels) (hs : channel < source.numChannels)
    (hn : dest.numSamples ≤ source.numSamples) :
    dest.addFrom channel 0 source channel 0 dest.numSamples gain =
      some { dest with
        sample := fun c i =>
          if c = channel ∧ i < dest.numSamples then
            F32.addWithGain (dest.sample c i) (source.sample channel i) gain
          else dest.sample c i } := by
  unfold AudioBuffer.addFrom
  rw [if_pos ⟨hd, by omega, hs, by omega⟩]
  congr 2
  funext c i
  simp

theorem mixDown_step (S P : AudioBuffer) (m : F32) (ch : Nat) (buffer : AudioBuffer)
    (hc : ch < buffer.numChannels)
    (hSc : S.numChannels = buffer.numChannels) (hSn : S.numSamples = buffer.numSamples)
    (hPc : P.numChannels = buffer.numChannels) (hPn : P.numSamples = buffer.numSamples) :
    ∃ b2, ((buffer.addFrom ch 0 S ch 0 buffer.numSamples m).bind fun b1 =>
        b1.addFrom ch 0 P ch 0 b1.numSamples ((F32.finite 1).sub m)) = some b2 ∧
      b2.numChannels = buffer.numChannels ∧ b2.numSamples = buffer.numSamples ∧
      ∀ c i, b2.sample c i =
        if c = ch ∧ i < buffer.numSamples then
          F32.addWithGain (F32.addWithGain (buffer.sample c i) (S.sample c i) m)
            (P.sample c i) ((F32.finite 1).sub m)
        else buffer.sample c i := by
  rw [addFrom_whole_channel buffer S ch m hc (by omega) (by omega)]
  simp only [Option.some_bind]
  refine ⟨_, addFrom_whole_channel _ P ch ((F32.finite 1).sub m) ?_ ?_ ?_, rfl, rfl, ?_⟩
  · exact hc
  · omega
  · show buffer.numSamples ≤ P.numSamples
    omega
  intro c i
  by_cases h : c = ch ∧ i < buffer.numSamples
  · obtain ⟨rfl, hi⟩ := h
    simp [hi]
  · simp [h]

theorem mixDown_spec (S P : AudioBuffer) (m : F32) (channels : List Nat) (buffer : AudioBuffer)
    (hnd : channels.Nodup) (hch : ∀ c ∈ channels, c < buffer.numChannels)
    (hSc : S.numChannels = buffer.numChannels) (hSn : S.numSamples = buffer.numSamples)
    (hPc : P.numChannels = buffer.numChannels) (hPn : P.numSamples = buffer.numSamples) :
    ∃ out, mixDown S P m channels buffer = some out ∧
      out.numChannels = buffer.numChannels ∧ out.numSamples = buffer.numSamples ∧
      ∀ c i, out.sample c i =
        if c ∈ channels ∧ i < buffer.numSamples then
          F32.addWithGain (F32.addWithGain (buffer.sample c i) (S.sample c i) m)
            (P.sample c i) ((F32.finite 1).sub m)
        else buffer.sample c i := by
  induction channels generalizing buffer with
  | nil => exact ⟨buffer, rfl, rfl, rfl, by simp⟩
  | cons ch rest ih =>
    have hc : ch < buffer.numChannels := hch ch (List.mem_cons_self _ _)
    have hnot : ch ∉ rest := (List.nodup_cons.mp hnd).1
    have hnd' : rest.Nodup := (List.nodup_cons.mp hnd).2
    obtain ⟨b2, hb2, hb2c, hb2n, hb2s⟩ := mixDown_step S P m ch buffer hc hSc hSn hPc hPn
    obtain ⟨out, hout, hoc, hon, hsamp⟩ := ih b2 hnd'
      (fun c hcm => by rw [hb2c]; exact hch c (List.mem_cons_of_mem _ hcm))
      (by omega) (by omega) (by omega) (by omega)
    refine ⟨out, ?_, by omega, by omega, ?_⟩
    · have hbind : mixDown S P m (ch :: rest) buffer
          = ((buffer.addFrom ch 0 S ch 0 buffer.numSamples m).bind fun b1 =>
              b1.addFrom ch 0 P ch 0 b1.numSamples ((F32.finite 1).sub m)).bind
              (mixDown S P m rest) := by
        simp only [mixDown]
        cases buffer.addFrom ch 0 S ch 0 buffer.numSamples m <;> rfl
      rw [hbind, hb2]
      exact hout
    · intro c i
      rw [hsamp c i, hb2s c i, hb2n]
      by_cases hcc : c = ch
      · subst hcc
        by_cases hi : i < buffer.numSamples <;> simp [hnot, hi]
      · by_cases hcr : c ∈ rest <;> by_cases hi : i < buffer.numSamples <;> simp [hcc, hcr, hi]

theorem processBlockMix_spec (ops : EngineOps Synth Sampler) (mixParam : Option F32)
    (st : Engines Synth Sampler) (buffer : AudioBuffer) (midiMessages : List MidiMessage)
    (S P : AudioBuffer)
    (hS : S = (ops.synthRenderNextBlock
      (midiMessages.foldl (handleMidiEvent ops) st).wavetableSynth
      (AudioBuffer.alloc buffer.numChannels buffer.numSamples).clear midiMessages 0
      buffer.numSamples).2)
    (hP : P = (ops.samplerRenderNextBlock
      (midiMessages.foldl (handleMidiEvent ops) st).sampler
      (AudioBuffer.alloc buffer.numChannels buffer.numSamples).clear midiMessages 0
      buffer.numSamples).2)
    (hSc : S.numChannels = buffer.numChannels) (hSn : S.numSamples = buffer.numSamples)
    (hPc : P.numChannels = buffer.numChannels) (hPn : P.numSamples = buffer.numSamples) :
    ∃ r, processBlockMix ops mixParam st buffer midiMessages = some r ∧
      r.synthBuffer = S ∧ r.sampleBuffer = P ∧
      r.buffer.numChannels = buffer.numChannels ∧ r.buffer.numSamples = buffer.numSamples ∧
      ∀ c i, c < buffer.numChannels → i < buffer.numSamples →
        r.buffer.sample c i =
          F32.addWithGain (F32.addWithGain (F32.finite 0) (S.sample c i) (mixLevelOf mixParam))
            (P.sample c i) ((F32.finite 1).sub (mixLevelOf mixParam)) := by
  have hnd : (List.range buffer.clear.numChannels).Nodup := List.nodup_range _
  have hch : ∀ c ∈ List.range buffer.clear.numChannels, c < buffer.clear.numChannels :=
    fun c hc => List.mem_range.mp hc
  obtain ⟨out, hout, hoc, hon, hsamp⟩ := mixDown_spec S P (mixLevelOf mixParam)
    (List.range buffer.clear.numChannels) buffer.clear hnd hch hSc hSn hPc hPn
  have hrun : processBlockMix ops mixParam st buffer midiMessages =
      (mixDown S P (mixLevelOf mixParam) (List.range buffer.clear.numChannels) buffer.clear).map
        fun mixed =>
          { engines :=
              { wavetableSynth := (ops.synthRenderNextBlock
                  (midiMessages.foldl (handleMidiEvent ops) st).wavetableSynth
                  (AudioBuffer.alloc buffer.numChannels buffer.numSamples).clear midiMessages 0
                  buffer.numSamples).1
                sampler := (ops.samplerRenderNextBlock
                  (midiMessages.foldl (handleMidiEvent ops) st).sampler
                  (AudioBuffer.alloc buffer.numChannels buffer.numSamples).clear midiMessages 0
                  buffer.numSamples).1 }
            synthBuffer := S
            sampleBuffer := P
            buffer := mixed } := by
    unfold processBlockMix
    simp only [processMidiMessages_eq_foldl]
    rw [hS, hP]
    rfl
  rw [hrun, hout]
  refine ⟨_, rfl, rfl, rfl, hoc, hon, ?_⟩
  intro c i hc hi
  have hval := hsamp c i
  rw [if_pos ⟨List.mem_range.mpr hc, hi⟩] at hval
  exact hval

end ProcessorLemmas

/-! ### Helper lemmas on float rounding and parameters -/

theorem roundHalfEven_error (y : ℚ) : |(roundHalfEven y : ℚ) - y| ≤ 1 / 2 := by
  have h1 : (⌊y⌋ : ℚ) ≤ y := Int.floor_le y
  have h2 : y < ⌊y⌋ + 1 := Int.lt_floor_add_one y
  unfold roundHalfEven
  rw [abs_le]
  split_ifs with ha hb hc
  · constructor <;> linarith
  · push_cast; constructor <;> linarith
  · constructor <;> linarith
  · push_cast; constructor <;> linarith

theorem roundHalfEven_eq_of_near (y : ℚ) (n : ℤ) (h : |y - n| < 1 / 2) : roundHalfEven y = n := by
  rw [abs_lt] at h
  have h1 : (⌊y⌋ : ℚ) ≤ y := Int.floor_le y
  have h2 : y < ⌊y⌋ + 1 := Int.lt_floor_add_one y
  unfold roundHalfEven
  generalize ⌊y⌋ = f at h1 h2 ⊢
  have hlo : n - 2 < f := by
    have : ((n - 2 : ℤ) : ℚ) < (f : ℚ) := by push_cast; linarith
    exact_mod_cast this
  have hhi : f < n + 1 := by
    have : (f : ℚ) < ((n + 1 : ℤ) : ℚ) := by push_cast; linarith
    exact_mod_cast this
  have hcase : f = n ∨ f = n - 1 := by omega
  rcases hcase with hf | hf
  · subst hf
    rw [if_pos (by linarith)]
  · have hq : (f : ℚ) = n - 1 := by rw [hf]; push_cast; ring
    rw [if_neg (by rw [hq]; linarith), if_pos (by rw [hq]; linarith), hf]
    ring

theorem ulpExponent_eq (q : ℚ) (L : ℤ) (h1 : 2 ^ L ≤ |q|) (h2 : |q| < 2 ^ (L + 1)) :
    F32.ulpExponent q = max (L - 23) (-149) := by
  have hpos : 0 < |q| := lt_of_lt_of_le (by positivity) h1
  have hL : Int.log 2 |q| = L := by
    apply le_antisymm
    · have : Int.log 2 |q| < L + 1 := by
        rw [← Int.lt_zpow_iff_log_lt (by norm_num) hpos]
        simpa using h2
      omega
    · rw [← Int.zpow_le_iff_le_log (by norm_num) hpos]
      simpa using h1
  unfold F32.ulpExponent
  rw [hL]

theorem roundRat_eq (q : ℚ) (L n : ℤ) (h1 : 2 ^ L ≤ |q|) (h2 : |q| < 2 ^ (L + 1))
    (hn : |q / 2 ^ (max (L - 23) (-149)) - n| < 1 / 2) :
    F32.roundRat q = n * 2 ^ (max (L - 23) (-149)) := by
  unfold F32.roundRat
  rw [ulpExponent_eq q L h1 h2, roundHalfEven_eq_of_near _ n hn]

theorem roundRat_zero : F32.roundRat 0 = 0 := by
  simp [F32.roundRat, roundHalfEven]

theorem roundRat_error (q : ℚ) : |F32.roundRat q - q| ≤ |q| / 2 ^ 24 + 1 / 2 ^ 150 := by
  by_cases hq : q = 0
  · subst hq
    rw [roundRat_zero]
    norm_num
  have hpos : 0 < |q| := abs_pos.mpr hq
  have hlog : (2 : ℚ) ^ Int.log 2 |q| ≤ |q| := by
    have := Int.zpow_log_le_self (R := ℚ) (b := 2) (by norm_num) hpos
    simpa using this
  set e := F32.ulpExponent q with he
  have hepos : (0 : ℚ) < 2 ^ e := by positivity
  have herr := roundHalfEven_error (q / 2 ^ e)
  have hmain : |F32.roundRat q - q| ≤ 2 ^ e / 2 := by
    have hrw : F32.roundRat q - q = ((roundHalfEven (q / 2 ^ e) : ℚ) - q / 2 ^ e) * 2 ^ e := by
      unfold F32.roundRat
      rw [← he]
      field_simp
    rw [hrw, abs_mul, abs_of_pos hepos]
    calc |(roundHalfEven (q / 2 ^ e) : ℚ) - q / 2 ^ e| * 2 ^ e ≤ 1 / 2 * 2 ^ e :=
          mul_le_mul_of_nonneg_right herr (le_of_lt hepos)
      _ = 2 ^ e / 2 := by ring
  have hcases : e = Int.log 2 |q| - 23 ∨ e = -149 := by
    rw [he]; unfold F32.ulpExponent
    rcases max_cases (Int.log 2 |q| - 23) (-149) with h | h
    · left; exact h.1
    · right; exact h.1
  have hbound : (2 : ℚ) ^ e / 2 ≤ |q| / 2 ^ 24 + 1 / 2 ^ 150 := by
    rcases hcases with h | h
    · rw [h, zpow_sub₀ (by norm_num)]
      have h23 : (2 : ℚ) ^ (23 : ℤ) = 2 ^ 23 := by norm_num
      rw [h23]
      have : (2 : ℚ) ^ Int.log 2 |q| / 2 ^ 23 / 2 ≤ |q| / 2 ^ 24 := by
        rw [div_div, show (2 : ℚ) ^ 23 * 2 = 2 ^ 24 by norm_num]
        exact div_le_div_of_nonneg_right hlog (by positivity)
      have h0 : (0 : ℚ) ≤ 1 / 2 ^ 150 := by positivity
      linarith
    · rw [h]
      have : (2 : ℚ) ^ (-149 : ℤ) / 2 = 1 / 2 ^ 150 := by
        rw [zpow_neg]; norm_num
      rw [this]
      have h0 : (0 : ℚ) ≤ |q| / 2 ^ 24 := by positivity
      linarith
  exact le_trans hmain hbound


theorem roundRat_one : F32.roundRat 1 = 1 := by
  rw [roundRat_eq 1 0 8388608 (by norm_num) (by norm_num) (by norm_num)]
  norm_num

theorem roundRat_half : F32.roundRat (1 / 2) = 1 / 2 := by
  rw [roundRat_eq (1 / 2) (-1) 8388608 (by norm_num [abs_of_pos]) (by norm_num [abs_of_pos])
    (by norm_num)]
  norm_num

theorem roundRat_19980 : F32.roundRat 19980 = 19980 := by
  rw [roundRat_eq 19980 14 10229760 (by norm_num) (by norm_num) (by norm_num)]
  norm_num

theorem roundRat_abs_le (x : ℚ) : |F32.roundRat x| ≤ |x| + |x| / 2 ^ 24 + 1 / 2 ^ 150 := by
  have h := roundRat_error x
  have h2 : |F32.roundRat x| ≤ |F32.roundRat x - x| + |x| := by
    have := abs_add (F32.roundRat x - x) x
    simpa using this
  linarith

theorem ofRat_eq_finite (x : ℚ) (h : |x| ≤ 2 ^ 127) : F32.ofRat x = F32.finite (F32.roundRat x) := by
  have hb := roundRat_abs_le x
  have hlt : |F32.roundRat x| < 2 ^ 128 := by
    have h1 : |x| / 2 ^ 24 ≤ 2 ^ 127 / 2 ^ 24 := div_le_div_of_nonneg_right h (by positivity)
    have h2 : (2 : ℚ) ^ 127 + 2 ^ 127 / 2 ^ 24 + 1 / 2 ^ 150 < 2 ^ 128 := by norm_num
    linarith
  rw [abs_lt] at hlt
  unfold F32.ofRat
  rw [if_neg (by linarith [hlt.2]), if_neg (by linarith [hlt.1])]

theorem clampRat_bounds (lo hi x : ℚ) (h : lo ≤ hi) :
    lo ≤ clampRat lo hi x ∧ clampRat lo hi x ≤ hi := by
  unfold clampRat
  split_ifs <;> constructor <;> linarith

theorem clampRat_of_mem (lo hi x : ℚ) (h1 : lo ≤ x) (h2 : x ≤ hi) : clampRat lo hi x = x := by
  unfold clampRat
  rw [if_neg (not_lt.mpr h1), if_neg (not_lt.mpr h2)]

theorem clampRat_dist_le (lo hi x t : ℚ) (h1 : lo ≤ t) (h2 : t ≤ hi) :
    |clampRat lo hi x - t| ≤ |x - t| := by
  unfold clampRat
  split_ifs with ha hb
  · rw [abs_le]; constructor
    · have := neg_abs_le (x - t); have := abs_nonneg (x - t); linarith [abs_sub_comm x t, le_abs_self (t - x)]
    · have := le_abs_self (t - x); rw [abs_sub_comm] at this; linarith
  · rw [abs_le]; constructor
    · have := abs_nonneg (x - t); linarith
    · have := le_abs_self (x - t); linarith
  · exact le_refl _

theorem jlimit_finite (lo hi x : ℚ) :
    jlimit (F32.finite lo) (F32.finite hi) (F32.finite x) = F32.finite (clampRat lo hi x) := by
  unfold jlimit clampRat F32.lt
  by_cases h1 : x < lo
  · simp [h1]
  · by_cases h2 : hi < x <;> simp [h1, h2]

theorem jlimit_of_ne_nan (lo hi : ℚ) (hlh : lo ≤ hi) (value : F32) (h : value ≠ F32.nan) :
    ∃ q, jlimit (F32.finite lo) (F32.finite hi) value = F32.finite q ∧ lo ≤ q ∧ q ≤ hi ∧
      (value.lt (F32.finite lo) = true → q = lo) ∧
      ((F32.finite hi).lt value = true → q = hi) ∧
      (∀ x, value = F32.finite x → lo ≤ x → x ≤ hi → q = x) := by
  cases value with
  | finite x =>
    refine ⟨clampRat lo hi x, jlimit_finite lo hi x, (clampRat_bounds lo hi x hlh).1,
      (clampRat_bounds lo hi x hlh).2, ?_, ?_, ?_⟩
    · intro hlt
      have : x < lo := by simpa [F32.lt] using hlt
      simp [clampRat, this]
    · intro hgt
      have hx : hi < x := by simpa [F32.lt] using hgt
      have : ¬ x < lo := by linarith
      simp [clampRat, this, hx]
    · intro y hy h1 h2
      cases hy
      exact clampRat_of_mem lo hi x h1 h2
  | posInf =>
    refine ⟨hi, by simp [jlimit, F32.lt], hlh, le_refl _, ?_, ?_, ?_⟩
    · intro hlt; simp [F32.lt] at hlt
    · intro _; rfl
    · intro y hy; cases hy
  | negInf =>
    refine ⟨lo, by simp [jlimit, F32.lt], le_refl _, hlh, ?_, ?_, ?_⟩
    · intro _; rfl
    · intro hgt; simp [F32.lt] at hgt
    · intro y hy; cases hy
  | nan => exact absurd rfl h

theorem sub_finite (a b : ℚ) (h : |a - b| ≤ 2 ^ 127) :
    (F32.finite a).sub (F32.finite b) = F32.finite (F32.roundRat (a - b)) := by
  show F32.ofRat (a + -b) = _
  rw [← sub_eq_add_neg, ofRat_eq_finite _ h]

theorem div_finite (a b : ℚ) (hb : b ≠ 0) :
    (F32.finite a).div (F32.finite b) = F32.ofRat (a / b) := by
  simp [F32.div, hb]

theorem roundRat_cutoff_offset_bounds (q : ℚ) (h1 : 20 ≤ q) (h2 : q ≤ 20000) :
    |F32.roundRat (q - 20) - (q - 20)| ≤ 19980 / 2 ^ 24 + 1 / 2 ^ 150 := by
  have h := roundRat_error (q - 20)
  rw [abs_of_nonneg (by linarith : (0 : ℚ) ≤ q - 20)] at h
  have : (q - 20) / 2 ^ 24 ≤ 19980 / 2 ^ 24 := div_le_div_of_nonneg_right (by linarith) (by positivity)
  linarith

theorem cutoff_convertTo0to1 (q : ℚ) (h1 : 20 ≤ q) (h2 : q ≤ 20000) :
    NormalisableRange.convertTo0to1 { start := F32.finite 20, stop := F32.finite 20000 }
        (F32.finite q)
      = F32.finite (clampRat 0 1 (F32.roundRat (F32.roundRat (q - 20) / 19980))) := by
  have hb := roundRat_cutoff_offset_bounds q h1 h2
  rw [abs_le] at hb
  have hsmall : (19980 : ℚ) / 2 ^ 24 + 1 / 2 ^ 150 ≤ 1 := by norm_num
  unfold NormalisableRange.convertTo0to1
  simp only
  rw [sub_finite q 20 (by rw [abs_of_nonneg (by linarith)]; linarith [show (20000:ℚ) ≤ 2 ^ 127 by norm_num]),
    sub_finite 20000 20 (by norm_num)]
  have h19980 : F32.roundRat (20000 - 20) = 19980 := by
    rw [show (20000 : ℚ) - 20 = 19980 by norm_num, roundRat_19980]
  rw [h19980]
  rw [div_finite _ _ (by norm_num)]
  have hx : |F32.roundRat (q - 20) / 19980| ≤ 2 ^ 127 := by
    rw [abs_div, abs_of_pos (by norm_num : (0 : ℚ) < 19980), div_le_iff₀ (by norm_num)]
    rw [abs_le]
    constructor <;> nlinarith [show (1 : ℚ) ≤ 2 ^ 127 by norm_num]
  rw [ofRat_eq_finite _ hx, jlimit_finite]

theorem cutoff_convertFrom0to1 (v : ℚ) (h0 : 0 ≤ v) (h1 : v ≤ 1) :
    NormalisableRange.convertFrom0to1 { start := F32.finite 20, stop := F32.finite 20000 }
        (F32.finite v)
      = F32.finite (F32.roundRat (20 + F32.roundRat (19980 * v))) := by
  unfold NormalisableRange.convertFrom0to1
  simp only
  rw [sub_finite 20000 20 (by norm_num)]
  have h19980 : F32.roundRat (20000 - 20) = 19980 := by
    rw [show (20000 : ℚ) - 20 = 19980 by norm_num, roundRat_19980]
  rw [h19980]
  have hw : |19980 * v| ≤ 19980 := by
    rw [abs_of_nonneg (by positivity)]; nlinarith
  show (F32.finite 20).add (F32.ofRat (19980 * v)) = _
  rw [ofRat_eq_finite _ (by linarith [show (19980 : ℚ) ≤ 2 ^ 127 by norm_num])]
  have hz := roundRat_abs_le (19980 * v)
  have hz2 : |F32.roundRat (19980 * v)| ≤ 20000 := by
    have : |19980 * v| / 2 ^ 24 ≤ 19980 / 2 ^ 24 := div_le_div_of_nonneg_right hw (by positivity)
    have : (19980 : ℚ) + 19980 / 2 ^ 24 + 1 / 2 ^ 150 ≤ 20000 := by norm_num
    linarith
  show F32.ofRat (20 + F32.roundRat (19980 * v)) = _
  rw [ofRat_eq_finite]
  have := abs_add (20 : ℚ) (F32.roundRat (19980 * v))
  rw [abs_of_pos (by norm_num : (0 : ℚ) < 20)] at this
  linarith [show (20020 : ℚ) ≤ 2 ^ 127 by norm_num]

theorem cutoff_normalised_error (q : ℚ) (h1 : 20 ≤ q) (h2 : q ≤ 20000) :
    |clampRat 0 1 (F32.roundRat (F32.roundRat (q - 20) / 19980)) - (q - 20) / 19980|
      ≤ 1 / 2 ^ 22 := by
  have ht0 : 0 ≤ (q - 20) / 19980 := div_nonneg (by linarith) (by norm_num)
  have ht1 : (q - 20) / 19980 ≤ 1 := by rw [div_le_one (by norm_num)]; linarith
  refine le_trans (clampRat_dist_le 0 1 _ _ ht0 ht1) ?_
  have hb := roundRat_cutoff_offset_bounds q h1 h2
  rw [abs_le] at hb
  set x1 := F32.roundRat (q - 20) with hx1
  set t := (q - 20) / 19980 with ht
  have hteq : t * 19980 = q - 20 := by rw [ht]; field_simp
  set y := x1 / 19980 with hy
  have hyeq : y * 19980 = x1 := by rw [hy]; field_simp
  have hc1 : (19980 : ℚ) / 2 ^ 24 + 1 / 2 ^ 150 ≤ 19980 * (1 / 2 ^ 24 + 1 / 2 ^ 150) := by norm_num
  have hyt : |y - t| ≤ 1 / 2 ^ 24 + 1 / 2 ^ 150 := by
    rw [abs_le]; constructor <;> nlinarith
  rw [abs_le] at hyt
  have hyabs : |y| ≤ 2 := by
    rw [abs_le]
    have : (1 : ℚ) / 2 ^ 24 + 1 / 2 ^ 150 ≤ 1 := by norm_num
    constructor <;> linarith
  have he := roundRat_error y
  have he2 : |F32.roundRat y - y| ≤ 2 / 2 ^ 24 + 1 / 2 ^ 150 := by
    have : |y| / 2 ^ 24 ≤ 2 / 2 ^ 24 := div_le_div_of_nonneg_right hyabs (by positivity)
    linarith
  rw [abs_le] at he2
  have hfin : (1 : ℚ) / 2 ^ 24 + 1 / 2 ^ 150 + (2 / 2 ^ 24 + 1 / 2 ^ 150) ≤ 1 / 2 ^ 22 := by norm_num
  rw [abs_le]
  constructor <;> linarith

theorem cutoff_roundtrip_error (q v : ℚ) (h1 : 20 ≤ q) (h2 : q ≤ 20000) (hv0 : 0 ≤ v) (hv1 : v ≤ 1)
    (hv : |v - (q - 20) / 19980| ≤ 1 / 2 ^ 22) :
    |clampRat 20 20000 (F32.roundRat (20 + F32.roundRat (19980 * v))) - q| ≤ 1 / 100 := by
  refine le_trans (clampRat_dist_le 20 20000 _ _ h1 h2) ?_
  set t := (q - 20) / 19980 with ht
  have hteq : t * 19980 = q - 20 := by rw [ht]; field_simp
  rw [abs_le] at hv
  have hw0 : 0 ≤ 19980 * v := by positivity
  have hw1 : 19980 * v ≤ 19980 := by nlinarith
  have e1 := roundRat_error (19980 * v)
  rw [abs_of_nonneg hw0] at e1
  have e1b : |F32.roundRat (19980 * v) - 19980 * v| ≤ 19980 / 2 ^ 24 + 1 / 2 ^ 150 := by
    have : 19980 * v / 2 ^ 24 ≤ 19980 / 2 ^ 24 := div_le_div_of_nonneg_right hw1 (by positivity)
    linarith
  rw [abs_le] at e1b
  set z1 := F32.roundRat (19980 * v) with hz1
  have hs0 : 0 ≤ 20 + z1 := by
    have : (19980 : ℚ) / 2 ^ 24 + 1 / 2 ^ 150 ≤ 1 := by norm_num
    linarith
  have hs1 : 20 + z1 ≤ 20001 := by
    have : (19980 : ℚ) / 2 ^ 24 + 1 / 2 ^ 150 ≤ 1 := by norm_num
    linarith
  have e2 := roundRat_error (20 + z1)
  rw [abs_of_nonneg hs0] at e2
  have e2b : |F32.roundRat (20 + z1) - (20 + z1)| ≤ 20001 / 2 ^ 24 + 1 / 2 ^ 150 := by
    have : (20 + z1) / 2 ^ 24 ≤ 20001 / 2 ^ 24 := div_le_div_of_nonneg_right hs1 (by positivity)
    linarith
  rw [abs_le] at e2b
  have hfin : (20001 : ℚ) / 2 ^ 24 + 1 / 2 ^ 150 + (19980 / 2 ^ 24 + 1 / 2 ^ 150)
      + 19980 * (1 / 2 ^ 22) ≤ 1 / 100 := by norm_num
  rw [abs_le]
  constructor <;> nlinarith

theorem getParameter_paramID (apvts : List Parameter) (paramID : String) (p : Parameter)
    (h : getParameter apvts paramID = some p) : p.paramID = paramID := by
  unfold getParameter at h
  have := List.find?_some h
  simpa using this

theorem getParameter_storeParameter (apvts : List Parameter) (paramID : String)
    (p q : Parameter) (h : getParameter apvts paramID = some p) (hq : q.paramID = paramID) :
    getParameter (storeParameter apvts q) paramID = some q := by
  induction apvts with
  | nil => simp [getParameter] at h
  | cons a rest ih =>
    unfold getParameter at h ih ⊢
    by_cases ha : a.paramID = paramID
    · simp [storeParameter, ha, hq]
    · have h' : List.find? (fun p => p.paramID == paramID) rest = some p := by
        simpa [List.find?_cons, ha] using h
      have hne : ¬ a.paramID = q.paramID := by rw [hq]; exact ha
      simp [storeParameter, hne, List.find?_cons, ha, ih h']

theorem ofRat_zero : F32.ofRat 0 = F32.finite 0 := by
  rw [ofRat_eq_finite 0 (by norm_num), roundRat_zero]

theorem ofRat_one : F32.ofRat 1 = F32.finite 1 := by
  rw [ofRat_eq_finite 1 (by norm_num), roundRat_one]

theorem ofRat_half : F32.ofRat (1 / 2) = F32.finite (1 / 2) := by
  rw [ofRat_eq_finite _ (by norm_num [abs_of_pos]), roundRat_half]

theorem sub_one_one : (F32.finite 1).sub (F32.finite 1) = F32.finite 0 := by
  show F32.ofRat (1 + -1) = _
  rw [show (1 : ℚ) + -1 = 0 by norm_num, ofRat_zero]

theorem sub_one_zero : (F32.finite 1).sub (F32.finite 0) = F32.finite 1 := by
  show F32.ofRat (1 + -0) = _
  rw [show (1 : ℚ) + -0 = 1 by norm_num, ofRat_one]

theorem sub_one_half : (F32.finite 1).sub (F32.finite (1 / 2)) = F32.finite (1 / 2) := by
  show F32.ofRat (1 + -(1 / 2)) = _
  rw [show (1 : ℚ) + -(1 / 2) = 1 / 2 by norm_num, ofRat_half]

theorem addWithGain_zero (d s : F32) : F32.addWithGain d s (F32.finite 0) = d := by
  simp [F32.addWithGain]

theorem addWithGain_one (s : F32) (h : s.isFloat = true) :
    F32.addWithGain (F32.finite 0) s (F32.finite 1) = s := by
  have hne : F32.finite 1 ≠ F32.finite 0 := by
    intro h; injection h with h; norm_num at h
  unfold F32.addWithGain
  rw [if_neg hne]
  cases s with
  | finite q =>
    have hq : F32.ofRat q = F32.finite q := by simpa [F32.isFloat] using h
    show F32.add (F32.finite 0) (F32.ofRat (q * 1)) = _
    rw [mul_one, hq]
    show F32.ofRat (0 + q) = _
    rw [zero_add, hq]
  | posInf => simp [F32.mul, F32.add]
  | negInf => simp [F32.mul, F32.add]
  | nan => rfl

theorem addWithGain_half (d s : F32) :
    F32.addWithGain d s (F32.finite (1 / 2)) = d.add (s.mul (F32.finite (1 / 2))) := by
  have hne : F32.finite (1 / 2) ≠ F32.finite 0 := by
    intro h; injection h with h; norm_num at h
  unfold F32.addWithGain
  rw [if_neg hne]

theorem mix_half_of_ones :
    F32.addWithGain (F32.addWithGain (F32.finite 0) (F32.finite 1) (F32.finite (1 / 2)))
      (F32.finite 1) (F32.finite (1 / 2)) = F32.finite 1 := by
  have hne : F32.finite (1 / 2) ≠ F32.finite 0 := by
    intro h; injection h with h; norm_num at h
  unfold F32.addWithGain
  rw [if_neg hne, if_neg hne]
  show F32.add (F32.add (F32.finite 0) (F32.ofRat (1 * (1 / 2)))) (F32.ofRat (1 * (1 / 2))) = _
  rw [one_mul, ofRat_half]
  show F32.add (F32.ofRat (0 + 1 / 2)) _ = _
  rw [zero_add, ofRat_half]
  show F32.ofRat (1 / 2 + 1 / 2) = _
  rw [show (1 : ℚ) / 2 + 1 / 2 = 1 by norm_num, ofRat_one]

theorem jlimit_nan (lo hi : F32) : jlimit lo hi F32.nan = F32.nan := by
  cases lo <;> cases hi <;> rfl

theorem convertTo0to1_nan (p : Parameter) : p.convertTo0to1 F32.nan = F32.nan := by
  unfold Parameter.convertTo0to1 NormalisableRange.snapToLegalValue
    NormalisableRange.convertTo0to1
  rw [jlimit_nan]
  have h1 : F32.nan.sub p.range.start = F32.nan := by
    cases p.range.start <;> rfl
  have h2 : F32.nan.div (p.range.stop.sub p.range.start) = F32.nan := by
    cases p.range.stop.sub p.range.start <;> rfl
  rw [h1, h2, jlimit_nan]

theorem cutoff_published (param : Parameter)
    (hrange : param.range = { start := F32.finite 20, stop := F32.finite 20000 })
    (q : ℚ) (h1 : 20 ≤ q) (h2 : q ≤ 20000) :
    param.convertTo0to1 (jlimit (F32.finite 20) (F32.finite 20000) (F32.finite q))
      = F32.finite (clampRat 0 1 (F32.roundRat (F32.roundRat (q - 20) / 19980))) := by
  unfold Parameter.convertTo0to1 NormalisableRange.snapToLegalValue
  rw [hrange]
  simp only
  rw [jlimit_finite, clampRat_of_mem 20 20000 q h1 h2, jlimit_finite,
    clampRat_of_mem 20 20000 q h1 h2, cutoff_convertTo0to1 q h1 h2]

theorem cutoff_converted_back (param : Parameter)
    (hrange : param.range = { start := F32.finite 20, stop := F32.finite 20000 })
    (v : ℚ) (h0 : 0 ≤ v) (h1 : v ≤ 1) :
    (param.setValueNotifyingHost (F32.finite v)).convertFrom0to1 (F32.finite v)
      = F32.finite (clampRat 20 20000 (F32.roundRat (20 + F32.roundRat (19980 * v)))) := by
  unfold Parameter.convertFrom0to1 NormalisableRange.snapToLegalValue
  show jlimit param.range.start param.range.stop (param.range.convertFrom0to1 _) = _
  rw [hrange]
  simp only
  rw [jlimit_finite, clampRat_of_mem 0 1 v h0 h1, cutoff_convertFrom0to1 v h0 h1, jlimit_finite]

theorem setFilterCutoff_stores (apvts : List Parameter) (param : Parameter) (cutoff : F32)
    (hget : getParameter apvts "filterCutoff" = some param) :
    getParameter (setFilterCutoff apvts cutoff) "filterCutoff" =
      some (param.setValueNotifyingHost
        (param.convertTo0to1 (jlimit (F32.finite 20) (F32.finite 20000) cutoff))) := by
  unfold setFilterCutoff
  rw [hget]
  exact getParameter_storeParameter apvts _ param _ hget
    (getParameter_paramID apvts _ param hget)

/-! ### Helper lemmas on the reverb stage -/

theorem reverbStereoLoop_lt_of_even (numChannels : Nat) :
    ∀ (k channel : Nat), channel + 2 * k = numChannels →
      ∀ c ∈ reverbStereoLoop numChannels channel, c < numChannels := by
  intro k
  induction k with
  | zero =>
    intro channel h c hc
    rw [reverbStereoLoop, if_neg (by omega)] at hc
    simp at hc
  | succ k ih =>
    intro channel h c hc
    rw [reverbStereoLoop, if_pos (by omega)] at hc
    rcases List.mem_cons.mp hc with rfl | hc
    · omega
    rcases List.mem_cons.mp hc with rfl | hc
    · omega
    · exact ih (channel + 2) (by omega) c hc

theorem applyDSPWritePointers_safe_of_even (numChannels : Nat) (h : 2 ∣ numChannels)
    (hpos : 0 < numChannels) : ∀ c ∈ applyDSPWritePointers numChannels, c < numChannels := by
  obtain ⟨k, hk⟩ := h
  unfold applyDSPWritePointers
  rw [if_pos (by omega)]
  exact reverbStereoLoop_lt_of_even numChannels k 0 (by omega)

theorem applyDSPWritePointers_mono : applyDSPWritePointers 1 = [0] := by
  simp [applyDSPWritePointers]

theorem reverbStereoLoop_odd_overrun (numChannels : Nat) :
    ∀ (k channel : Nat), channel + 2 * k + 1 = numChannels →
      numChannels ∈ reverbStereoLoop numChannels channel := by
  intro k
  induction k with
  | zero =>
    intro channel h
    rw [reverbStereoLoop, if_pos (by omega)]
    have : channel + 1 = numChannels := by omega
    simp [this]
  | succ k ih =>
    intro channel h
    rw [reverbStereoLoop, if_pos (by omega)]
    exact List.mem_cons_of_mem _ (List.mem_cons_of_mem _ (ih (channel + 2) (by omega)))

/-! ## Properties of the voice pool -/

section VoicePoolClaims

variable {Voice : Type} (isActive : Voice → Bool) (startNote : Voice → Int → ℚ → Voice)

/-- C2 (as the code behaves): when every voice of the pool is active,
`triggerNoteOn` returns the pool unchanged; no voice is stolen and the note is
started on no voice. -/
theorem triggerNoteOn_full_pool_unchanged (pool : List Voice) (n : Int) (vel : ℚ)
    (h : ∀ v ∈ pool, isActive v = true) :
    triggerNoteOn isActive startNote pool n vel = pool := by
  induction pool with
  | nil => rfl
  | cons v rest ih =>
    have hv : isActive v = true := h v (List.mem_cons_self _ _)
    have hr : ∀ w ∈ rest, isActive w = true := fun w hw => h w (List.mem_cons_of_mem _ hw)
    simp [triggerNoteOn, hv, ih hr]

/-- C3: when the pool holds an idle voice, `triggerNoteOn` starts the note on
the idle voice with the lowest pool index `k` (every voice before `k` is
active) and on no other: the result is the pool with position `k` replaced by
`startNote` of that voice, so every other position is unchanged. -/
theorem triggerNoteOn_starts_first_idle (pool : List Voice) (n : Int) (vel : ℚ)
    (h : ∃ v ∈ pool, isActive v = false) :
    ∃ (k : Nat) (hk : k < pool.length),
      isActive (pool.get ⟨k, hk⟩) = false ∧
      (∀ (j : Nat) (hj : j < pool.length), j < k → isActive (pool.get ⟨j, hj⟩) = true) ∧
      triggerNoteOn isActive startNote pool n vel
        = pool.set k (startNote (pool.get ⟨k, hk⟩) n vel) ∧
      (triggerNoteOn isActive startNote pool n vel)[k]?
        = some (startNote (pool.get ⟨k, hk⟩) n vel) ∧
      (∀ j : Nat, j ≠ k → (triggerNoteOn isActive startNote pool n vel)[j]? = pool[j]?) := by
  induction pool with
  | nil => simp at h
  | cons v rest ih =>
    by_cases hv : isActive v
    · have hr : ∃ w ∈ rest, isActive w = false := by
        obtain ⟨w, hw, hwa⟩ := h
        rcases List.mem_cons.mp hw with rfl | hw
        · rw [hv] at hwa; cases hwa
        · exact ⟨w, hw, hwa⟩
      obtain ⟨k, hk, hidle, hbefore, heq, hat, hother⟩ := ih hr
      refine ⟨k + 1, by simpa using hk, by simpa using hidle, ?_, ?_, ?_, ?_⟩
      · intro j hj hjk
        cases j with
        | zero => simpa using hv
        | succ j =>
          have := hbefore j (by simpa using hj) (by omega)
          simpa using this
      · simp [triggerNoteOn, hv, heq]
      · simpa [triggerNoteOn, hv] using hat
      · intro j hjk
        cases j with
        | zero => simp [triggerNoteOn, hv]
        | succ j =>
          have := hother j (by omega)
          simpa [triggerNoteOn, hv] using this
    · refine ⟨0, by simp, by simpa using hv, ?_, ?_, ?_, ?_⟩
      · intro j _ hj; omega
      · simp [triggerNoteOn, hv]
      · simp [triggerNoteOn, hv]
      · intro j hj
        cases j with
        | zero => exact absurd rfl hj
        | succ j => simp [triggerNoteOn, hv]

/-- C4: after any finite sequence of `triggerNoteOn` calls the pool has the
same number of voices as at the start, its number of active voices is at most
that capacity, and one more call raises the number of active voices by at most
one (whatever `startNote` does to the chosen voice). -/
theorem triggerNoteOn_pool_capacity (pool : List Voice) (calls : List (Int × ℚ)) :
    (triggerAll isActive startNote pool calls).length = pool.length ∧
    activeCount isActive (triggerAll isActive startNote pool calls) ≤ pool.length ∧
    ∀ (n : Int) (vel : ℚ),
      activeCount isActive
          (triggerNoteOn isActive startNote (triggerAll isActive startNote pool calls) n vel)
        ≤ activeCount isActive (triggerAll isActive startNote pool calls) + 1 := by
  refine ⟨triggerAll_length isActive startNote pool calls, ?_, ?_⟩
  · calc activeCount isActive (triggerAll isActive startNote pool calls)
        ≤ (triggerAll isActive startNote pool calls).length := activeCount_le_length _ _
      _ = pool.length := triggerAll_length isActive startNote pool calls
  · intro n vel
    exact activeCount_triggerNoteOn_le isActive startNote _ n vel

end VoicePoolClaims

/-- C2 (as stated) fails: in `fullPool` every voice is active, and
`triggerNoteOn 72 (1/2)` returns the pool as it was; no position of the pool
has been restarted on the new note and no voice of the result plays note 72. -/
theorem triggerNoteOn_full_pool_drops_note :
    (∀ v ∈ fullPool, SynthVoice.isActive v = true) ∧
    triggerNoteOn SynthVoice.isActive SynthVoice.startNote fullPool 72 (1 / 2) = fullPool ∧
    (∀ v ∈ triggerNoteOn SynthVoice.isActive SynthVoice.startNote fullPool 72 (1 / 2),
      v.note ≠ 72) ∧
    ¬ ∃ (k : Nat) (hk : k < fullPool.length),
        triggerNoteOn SynthVoice.isActive SynthVoice.startNote fullPool 72 (1 / 2)
          = fullPool.set k (SynthVoice.startNote (fullPool.get ⟨k, hk⟩) 72 (1 / 2)) := by
  have hrun : triggerNoteOn SynthVoice.isActive SynthVoice.startNote fullPool 72 (1 / 2)
      = fullPool := by
    simp [triggerNoteOn, fullPool, SynthVoice.isActive]
  refine ⟨?_, hrun, ?_, ?_⟩
  · simp [fullPool, SynthVoice.isActive]
  · rw [hrun]
    simp [fullPool]
  · rw [hrun]
    rintro ⟨k, hk, heq⟩
    have hk2 : k < 2 := hk
    have hnote := congrArg (fun l => l.map SynthVoice.note) heq
    interval_cases k <;> simp [fullPool, SynthVoice.startNote] at hnote

/-- Witness for C2 (as the code behaves) on `fullPool`. -/
theorem triggerNoteOn_full_pool_unchanged_witness :
    (∀ v ∈ fullPool, SynthVoice.isActive v = true) ∧
    triggerNoteOn SynthVoice.isActive SynthVoice.startNote fullPool 72 (1 / 2) = fullPool :=
  have h : ∀ v ∈ fullPool, SynthVoice.isActive v = true := by
    simp [fullPool, SynthVoice.isActive]
  ⟨h, triggerNoteOn_full_pool_unchanged SynthVoice.isActive SynthVoice.startNote
    fullPool 72 (1 / 2) h⟩

/-- Witness for C3 on `partlyIdlePool`, whose voices 1 and 2 are idle. -/
theorem triggerNoteOn_starts_first_idle_witness :
    (∃ v ∈ partlyIdlePool, SynthVoice.isActive v = false) ∧
    ∃ (k : Nat) (hk : k < partlyIdlePool.length),
      SynthVoice.isActive (partlyIdlePool.get ⟨k, hk⟩) = false ∧
      (∀ (j : Nat) (hj : j < partlyIdlePool.length), j < k →
        SynthVoice.isActive (partlyIdlePool.get ⟨j, hj⟩) = true) ∧
      triggerNoteOn SynthVoice.isActive SynthVoice.startNote partlyIdlePool 72 (1 / 2)
        = partlyIdlePool.set k (SynthVoice.startNote (partlyIdlePool.get ⟨k, hk⟩) 72 (1 / 2)) ∧
      (triggerNoteOn SynthVoice.isActive SynthVoice.startNote partlyIdlePool 72 (1 / 2))[k]?
        = some (SynthVoice.startNote (partlyIdlePool.get ⟨k, hk⟩) 72 (1 / 2)) ∧
      (∀ j : Nat, j ≠ k →
        (triggerNoteOn SynthVoice.isActive SynthVoice.startNote partlyIdlePool 72 (1 / 2))[j]?
          = partlyIdlePool[j]?) :=
  have h : ∃ v ∈ partlyIdlePool, SynthVoice.isActive v = false :=
    ⟨{ active := false, note := 0, velocity := 0 }, by simp [partlyIdlePool], rfl⟩
  ⟨h, triggerNoteOn_starts_first_idle SynthVoice.isActive SynthVoice.startNote
    partlyIdlePool 72 (1 / 2) h⟩

/-! ## Properties of MIDI routing -/

section RoutingClaims

variable {Synth Sampler : Type}

/-- C5: `handleMidiEvent` forwards a note-on to `handleNoteOn` of both engines
and a note-off to `handleNoteOff` of both engines, each time with the message's
note number and float velocity; any other message leaves both engines as they
were. -/
theorem handleMidiEvent_forwards (ops : EngineOps Synth Sampler) (st : Engines Synth Sampler)
    (message : MidiMessage) :
    (message.isNoteOn = true →
      handleMidiEvent ops st message =
        { wavetableSynth :=
            ops.synthHandleNoteOn st.wavetableSynth message.noteNumber message.floatVelocity
          sampler :=
            ops.samplerHandleNoteOn st.sampler message.noteNumber message.floatVelocity }) ∧
    (message.isNoteOff = true →
      handleMidiEvent ops st message =
        { wavetableSynth :=
            ops.synthHandleNoteOff st.wavetableSynth message.noteNumber message.floatVelocity
          sampler :=
            ops.samplerHandleNoteOff st.sampler message.noteNumber message.floatVelocity }) ∧
    (message.isNoteOn = false → message.isNoteOff = false →
      handleMidiEvent ops st message = st) := by
  refine ⟨?_, ?_, ?_⟩
  · intro h
    simp [handleMidiEvent, h]
  · intro h
    have hon : message.isNoteOn = false := by
      cases hk : message.kind <;> simp_all [MidiMessage.isNoteOn, MidiMessage.isNoteOff]
    simp [handleMidiEvent, h, hon]
  · intro h1 h2
    simp [handleMidiEvent, h1, h2]

/-- C6: `processBlock` handles the block's MIDI messages one after the other in
buffer order, which is the left fold of `handleMidiEvent` from the engines at
block start, and only then renders: the synth render call receives the synth of
the folded engines, the sampler render call the sampler of the folded engines,
and the mix-down works on the two rendered buffers. -/
theorem processBlock_midi_before_render (ops : EngineOps Synth Sampler) (mixParam : Option F32)
    (st : Engines Synth Sampler) (buffer : AudioBuffer) (midiMessages : List MidiMessage) :
    processMidiMessages ops st midiMessages = midiMessages.foldl (handleMidiEvent ops) st ∧
    processBlockMix ops mixParam st buffer midiMessages =
      (mixDown
        (ops.synthRenderNextBlock (midiMessages.foldl (handleMidiEvent ops) st).wavetableSynth
          (AudioBuffer.alloc buffer.numChannels buffer.numSamples).clear midiMessages 0
          buffer.numSamples).2
        (ops.samplerRenderNextBlock (midiMessages.foldl (handleMidiEvent ops) st).sampler
          (AudioBuffer.alloc buffer.numChannels buffer.numSamples).clear midiMessages 0
          buffer.numSamples).2
        (mixLevelOf mixParam) (List.range buffer.numChannels) buffer.clear).map fun mixed =>
        { engines :=
            { wavetableSynth :=
                (ops.synthRenderNextBlock
                  (midiMessages.foldl (handleMidiEvent ops) st).wavetableSynth
                  (AudioBuffer.alloc buffer.numChannels buffer.numSamples).clear midiMessages 0
                  buffer.numSamples).1
              sampler :=
                (ops.samplerRenderNextBlock (midiMessages.foldl (handleMidiEvent ops) st).sampler
                  (AudioBuffer.alloc buffer.numChannels buffer.numSamples).clear midiMessages 0
                  buffer.numSamples).1 }
          synthBuffer :=
            (ops.synthRenderNextBlock (midiMessages.foldl (handleMidiEvent ops) st).wavetableSynth
              (AudioBuffer.alloc buffer.numChannels buffer.numSamples).clear midiMessages 0
              buffer.numSamples).2
          sampleBuffer :=
            (ops.samplerRenderNextBlock (midiMessages.foldl (handleMidiEvent ops) st).sampler
              (AudioBuffer.alloc buffer.numChannels buffer.numSamples).clear midiMessages 0
              buffer.numSamples).2
          buffer := mixed } := by
  refine ⟨processMidiMessages_eq_foldl ops st midiMessages, ?_⟩
  unfold processBlockMix
  simp only [processMidiMessages_eq_foldl]
  rfl

end RoutingClaims

/-- Witness for C5: a note-on for note 60 reaches both demo engines. -/
theorem handleMidiEvent_forwards_witness :
    handleMidiEvent demoOps demoEngines { kind := MidiKind.noteOn, noteNumber := 60, floatVelocity := 1 }
      = { wavetableSynth := { waveform := 0, held := [60] }, sampler := [60] } :=
  (handleMidiEvent_forwards demoOps demoEngines
    { kind := MidiKind.noteOn, noteNumber := 60, floatVelocity := 1 }).1 rfl

/-! ## Properties of the mixing stage -/

/-- C1 (as the code behaves): let `S` and `P` be the buffers the synth and the
sampler render for the block (after the block's MIDI messages), of the block's
shape, and `m` the mix level (the `mix` parameter, or 0.5 when it is absent).
Then `processBlock` reaches the call of `applyDSP` with a buffer of the block's
shape in which every sample is `m * S + (1 - m) * P` evaluated in `float`
arithmetic from a cleared buffer: each product, the difference `1 - m` and each
sum is rounded, and a term whose gain is zero is not added. With `m = 1` the
sample is exactly `S`, with `m = 0` exactly `P`; with `m = 0.5` it is the
rounded sum of `S * 0.5` and `P * 0.5`, which is 1 for `S = P = 1`. -/
theorem processBlock_mix_law_rounded {Synth Sampler : Type} (ops : EngineOps Synth Sampler)
    (mixParam : Option F32) (m : F32) (st : Engines Synth Sampler) (buffer : AudioBuffer)
    (midiMessages : List MidiMessage) (S P : AudioBuffer)
    (hm : m = mixParam.getD (F32.finite (1 / 2)))
    (hS : S = (ops.synthRenderNextBlock
      (midiMessages.foldl (handleMidiEvent ops) st).wavetableSynth
      (AudioBuffer.alloc buffer.numChannels buffer.numSamples).clear midiMessages 0
      buffer.numSamples).2)
    (hP : P = (ops.samplerRenderNextBlock
      (midiMessages.foldl (handleMidiEvent ops) st).sampler
      (AudioBuffer.alloc buffer.numChannels buffer.numSamples).clear midiMessages 0
      buffer.numSamples).2)
    (hSc : S.numChannels = buffer.numChannels) (hSn : S.numSamples = buffer.numSamples)
    (hPc : P.numChannels = buffer.numChannels) (hPn : P.numSamples = buffer.numSamples) :
    ∃ r, processBlockMix ops mixParam st buffer midiMessages = some r ∧
      r.synthBuffer = S ∧ r.sampleBuffer = P ∧
      r.buffer.numChannels = buffer.numChannels ∧ r.buffer.numSamples = buffer.numSamples ∧
      ∀ c i, c < buffer.numChannels → i < buffer.numSamples →
        r.buffer.sample c i =
          F32.addWithGain (F32.addWithGain (F32.finite 0) (S.sample c i) m)
            (P.sample c i) ((F32.finite 1).sub m) ∧
        (m = F32.finite 1 → (S.sample c i).isFloat = true →
          r.buffer.sample c i = S.sample c i) ∧
        (m = F32.finite 0 → (P.sample c i).isFloat = true →
          r.buffer.sample c i = P.sample c i) ∧
        (m = F32.finite (1 / 2) →
          r.buffer.sample c i =
            ((F32.finite 0).add ((S.sample c i).mul (F32.finite (1 / 2)))).add
              ((P.sample c i).mul (F32.finite (1 / 2)))) ∧
        (m = F32.finite (1 / 2) → S.sample c i = F32.finite 1 → P.sample c i = F32.finite 1 →
          r.buffer.sample c i = F32.finite 1) := by
  have hml : mixLevelOf mixParam = m := by
    rw [hm]
    cases mixParam <;> rfl
  obtain ⟨r, hr, hrS, hrP, hc, hn, hs⟩ :=
    processBlockMix_spec ops mixParam st buffer midiMessages S P hS hP hSc hSn hPc hPn
  rw [hml] at hs
  refine ⟨r, hr, hrS, hrP, hc, hn, ?_⟩
  intro c i hci hii
  have hval := hs c i hci hii
  refine ⟨hval, ?_, ?_, ?_, ?_⟩
  · intro h1 hf
    rw [hval, h1, addWithGain_one _ hf, sub_one_one, addWithGain_zero]
  · intro h0 hf
    rw [hval, h0, addWithGain_zero, sub_one_zero, addWithGain_one _ hf]
  · intro hh
    rw [hval, hh, sub_one_half, addWithGain_half, addWithGain_half]
  · intro hh h1 h2
    rw [hval, hh, sub_one_half, h1, h2]
    exact mix_half_of_ones

/-- Witness for C1 (as the code behaves): both demo engines render the constant
signal 1 into a block of 2 channels and 4 samples; mixed at level 0.5 every
sample of the block is 1. -/
theorem processBlock_mix_law_rounded_witness :
    ∃ r, processBlockMix demoOps (some (F32.finite (1 / 2))) demoEngines (AudioBuffer.alloc 2 4) []
        = some r ∧
      r.buffer.numChannels = 2 ∧ r.buffer.numSamples = 4 ∧
      ∀ c i, c < 2 → i < 4 → r.buffer.sample c i = F32.finite 1 := by
  obtain ⟨r, hr, _, _, hc, hn, hs⟩ := processBlock_mix_law_rounded demoOps
    (some (F32.finite (1 / 2))) (F32.finite (1 / 2)) demoEngines (AudioBuffer.alloc 2 4) []
    _ _ rfl rfl rfl rfl rfl rfl rfl
  exact ⟨r, hr, hc, hn, fun c i hci hii => (hs c i hci hii).2.2.2.2 rfl rfl rfl⟩

/-- C1 (as stated) fails: the synth renders the constant 1, the sampler the
constant `3 / 2 ^ 25` (a `float`), and the mix level is 0.5. The mixed sample
is `8388609 / 2 ^ 24`, the `float` nearest to the exact value; the exact
`m * S + (1 - m) * P`, which is also the exact average `(S + P) / 2`, is
`1 / 2 + 3 / 2 ^ 26` and is not a `float`. -/
theorem processBlock_mix_not_exact :
    F32.ofRat (3 / 33554432) = F32.finite (3 / 33554432) ∧
    (∃ r, processBlockMix quietSamplerOps (some (F32.finite (1 / 2))) demoEngines
        (AudioBuffer.alloc 2 4) [] = some r ∧
      r.synthBuffer.sample 0 0 = F32.finite 1 ∧
      r.sampleBuffer.sample 0 0 = F32.finite (3 / 33554432) ∧
      r.buffer.sample 0 0 = F32.finite (8388609 / 16777216)) ∧
    (8388609 / 16777216 : ℚ) ≠ 1 / 2 * 1 + (1 - 1 / 2) * (3 / 33554432) ∧
    (8388609 / 16777216 : ℚ) ≠ (1 + 3 / 33554432) / 2 := by
  have hP : F32.roundRat (3 / 33554432) = 3 / 33554432 := by
    rw [roundRat_eq (3 / 33554432) (-24) 12582912 (by norm_num [abs_of_pos])
      (by norm_num [abs_of_pos]) (by norm_num)]
    norm_num
  refine ⟨?_, ?_, by norm_num, by norm_num⟩
  · rw [ofRat_eq_finite _ (by norm_num [abs_of_pos]), hP]
  · obtain ⟨r, hr, hrS, hrP, _, _, hs⟩ := processBlockMix_spec quietSamplerOps
      (some (F32.finite (1 / 2))) demoEngines (AudioBuffer.alloc 2 4) [] _ _ rfl rfl
      rfl rfl rfl rfl
    refine ⟨r, hr, by rw [hrS]; rfl, by rw [hrP]; rfl, ?_⟩
    rw [hs 0 0 (by decide) (by decide)]
    show F32.addWithGain (F32.addWithGain (F32.finite 0) (F32.finite 1) (F32.finite (1 / 2)))
      (F32.finite (3 / 33554432)) ((F32.finite 1).sub (F32.finite (1 / 2))) = _
    rw [sub_one_half]
    have hne : F32.finite (1 / 2) ≠ F32.finite 0 := by
      intro h; injection h with h; norm_num at h
    unfold F32.addWithGain
    rw [if_neg hne, if_neg hne]
    show F32.add (F32.add (F32.finite 0) (F32.ofRat (1 * (1 / 2))))
      (F32.ofRat (3 / 33554432 * (1 / 2))) = _
    have h1 : F32.ofRat (1 * (1 / 2)) = F32.finite (1 / 2) := by
      rw [one_mul, ofRat_eq_finite _ (by norm_num [abs_of_pos]), roundRat_half]
    have h2 : F32.ofRat (3 / 33554432 * (1 / 2)) = F32.finite (3 / 67108864) := by
      rw [ofRat_eq_finite _ (by norm_num [abs_of_pos]),
        roundRat_eq (3 / 33554432 * (1 / 2)) (-25) 12582912 (by norm_num [abs_of_pos])
          (by norm_num [abs_of_pos]) (by norm_num)]
      norm_num
    rw [h1, h2]
    show F32.add (F32.ofRat (0 + 1 / 2)) _ = _
    rw [zero_add, ofRat_eq_finite _ (by norm_num [abs_of_pos]), roundRat_half]
    show F32.ofRat (1 / 2 + 3 / 67108864) = _
    rw [ofRat_eq_finite _ (by norm_num [abs_of_pos]),
      roundRat_eq (1 / 2 + 3 / 67108864) (-1) 8388609 (by norm_num [abs_of_pos])
        (by norm_num [abs_of_pos]) (by norm_num [abs_lt])]
    norm_num

/-! ## Properties of the parameter setters -/

/-- C7 (as the code behaves): `setWaveform (type)` publishes `type` unchanged to
the wavetable synth when `0 ≤ type < NumWaveforms`; for any other `type` the
engines are left exactly as they were (nothing is clamped or published). -/
theorem setWaveform_guarded {Synth Sampler : Type} (ops : EngineOps Synth Sampler)
    (numWaveforms : Int) (st : Engines Synth Sampler) (type : Int) :
    (0 ≤ type ∧ type < numWaveforms →
      setWaveform ops numWaveforms st type =
        { st with wavetableSynth := ops.synthSetWaveform st.wavetableSynth type }) ∧
    (¬ (0 ≤ type ∧ type < numWaveforms) → setWaveform ops numWaveforms st type = st) := by
  constructor
  · intro h
    simp [setWaveform, h]
  · intro h
    unfold setWaveform
    rw [if_neg h]

/-- Witness for C7 (as the code behaves): with four waveforms, type 2 is
published and type 7 changes nothing. -/
theorem setWaveform_guarded_witness :
    (setWaveform demoOps 4 demoEngines 2).wavetableSynth.waveform = 2 ∧
    setWaveform demoOps 4 demoEngines 7 = demoEngines :=
  ⟨congrArg (fun e => e.wavetableSynth.waveform)
      ((setWaveform_guarded demoOps 4 demoEngines 2).1 (by decide)),
    (setWaveform_guarded demoOps 4 demoEngines 7).2 (by decide)⟩

/-- C7 (as stated) fails: with four waveforms and waveform 0 current,
`setWaveform (7)` leaves waveform 0 in place, whereas publishing the clamped
value would have set waveform 3. -/
theorem setWaveform_out_of_range_not_clamped :
    jlimitInt 0 (4 - 1) 7 = 3 ∧
    (setWaveform demoOps 4 demoEngines 7).wavetableSynth.waveform = 0 ∧
    setWaveform demoOps 4 demoEngines 7 ≠
      { demoEngines with
        wavetableSynth :=
          demoOps.synthSetWaveform demoEngines.wavetableSynth (jlimitInt 0 (4 - 1) 7) } := by
  refine ⟨by decide, by simp [setWaveform, demoEngines], ?_⟩
  intro h
  have hw := congrArg (fun e => e.wavetableSynth.waveform) h
  simp [setWaveform, demoEngines, demoOps, jlimitInt] at hw

/-- C8 (as the code behaves): `setReverbLevel (level)` stores `level` itself as
`roomSize`, without clamping, and keeps every other reverb parameter; the stored
room size lies in [0, 1] exactly when `level` does. -/
theorem setReverbLevel_stores_level (reverb : Reverb) (level : ℚ) :
    (setReverbLevel reverb level).parameters = { reverb.parameters with roomSize := level } ∧
    (setReverbLevel reverb level).parameters.roomSize = level ∧
    (setReverbLevel reverb level).parameters.damping = reverb.parameters.damping ∧
    (setReverbLevel reverb level).parameters.wetLevel = reverb.parameters.wetLevel ∧
    (setReverbLevel reverb level).parameters.dryLevel = reverb.parameters.dryLevel ∧
    (setReverbLevel reverb level).parameters.width = reverb.parameters.width ∧
    (setReverbLevel reverb level).parameters.freezeMode = reverb.parameters.freezeMode ∧
    ((0 ≤ (setReverbLevel reverb level).parameters.roomSize ∧
        (setReverbLevel reverb level).parameters.roomSize ≤ 1) ↔ (0 ≤ level ∧ level ≤ 1)) :=
  ⟨rfl, rfl, rfl, rfl, rfl, rfl, rfl, Iff.rfl⟩

/-- C8 (as stated) fails: `setReverbLevel (2)` on the default reverb stores room
size 2, which is above 1. -/
theorem setReverbLevel_not_clamped :
    (setReverbLevel defaultReverb 2).parameters.roomSize = 2 ∧
    ¬ (0 ≤ (setReverbLevel defaultReverb 2).parameters.roomSize ∧
        (setReverbLevel defaultReverb 2).parameters.roomSize ≤ 1) := by
  have h : (setReverbLevel defaultReverb 2).parameters.roomSize = 2 := rfl
  refine ⟨h, ?_⟩
  rw [h]
  norm_num

/-- C9 (as the code behaves): when `getParameter ("filterCutoff")` returns a
parameter declared over the range [20, 20000] and `cutoff` is not NaN,
`setFilterCutoff (cutoff)` publishes on it the normalised value of
`jlimit (20, 20000, cutoff)` computed in `float` arithmetic: a finite value in
[0, 1] that is 0 for `cutoff < 20` and 1 for `cutoff > 20000`; for
`20 ≤ cutoff ≤ 20000` it is the rounded quotient of the rounded difference
`cutoff - 20` by 19980, within `2 ^ (-22)` of `(cutoff - 20) / 19980`, and
converting it back gives a value within 1/100 of `cutoff`. -/
theorem setFilterCutoff_publishes_rounded (apvts : List Parameter) (param : Parameter)
    (cutoff : F32)
    (hget : getParameter apvts "filterCutoff" = some param)
    (hrange : param.range = { start := F32.finite 20, stop := F32.finite 20000 })
    (hnan : cutoff ≠ F32.nan) :
    ∃ (p : Parameter) (v : ℚ),
      getParameter (setFilterCutoff apvts cutoff) "filterCutoff" = some p ∧
      p.range = param.range ∧
      p.value = param.convertTo0to1 (jlimit (F32.finite 20) (F32.finite 20000) cutoff) ∧
      p.value = F32.finite v ∧ 0 ≤ v ∧ v ≤ 1 ∧
      (cutoff.lt (F32.finite 20) = true → v = 0) ∧
      ((F32.finite 20000).lt cutoff = true → v = 1) ∧
      (∀ q : ℚ, cutoff = F32.finite q → 20 ≤ q → q ≤ 20000 →
        v = clampRat 0 1 (F32.roundRat (F32.roundRat (q - 20) / 19980)) ∧
        |v - (q - 20) / 19980| ≤ 1 / 2 ^ 22 ∧
        ∃ back : ℚ, p.convertFrom0to1 p.value = F32.finite back ∧ |back - q| ≤ 1 / 100) := by
  obtain ⟨q', hj, hq1, hq2, hlo, hhi, hin⟩ :=
    jlimit_of_ne_nan 20 20000 (by norm_num) cutoff hnan
  have hval : param.convertTo0to1 (jlimit (F32.finite 20) (F32.finite 20000) cutoff)
      = F32.finite (clampRat 0 1 (F32.roundRat (F32.roundRat (q' - 20) / 19980))) := by
    unfold Parameter.convertTo0to1 NormalisableRange.snapToLegalValue
    rw [hrange, hj]
    simp only
    rw [jlimit_finite, clampRat_of_mem 20 20000 q' hq1 hq2, cutoff_convertTo0to1 q' hq1 hq2]
  have hv01 := clampRat_bounds 0 1 (F32.roundRat (F32.roundRat (q' - 20) / 19980)) (by norm_num)
  refine ⟨param.setValueNotifyingHost
      (param.convertTo0to1 (jlimit (F32.finite 20) (F32.finite 20000) cutoff)),
    clampRat 0 1 (F32.roundRat (F32.roundRat (q' - 20) / 19980)),
    setFilterCutoff_stores apvts param cutoff hget, rfl, rfl, hval, hv01.1, hv01.2, ?_, ?_, ?_⟩
  · intro h
    rw [hlo h]
    norm_num [roundRat_zero, clampRat]
  · intro h
    rw [hhi h]
    norm_num [roundRat_19980, roundRat_one, clampRat]
  · intro q hq h1 h2
    have hqq : q' = q := hin q hq h1 h2
    subst hqq
    refine ⟨rfl, cutoff_normalised_error q' h1 h2, ?_⟩
    refine ⟨clampRat 20 20000 (F32.roundRat (20 + F32.roundRat (19980 *
      clampRat 0 1 (F32.roundRat (F32.roundRat (q' - 20) / 19980))))), ?_,
      cutoff_roundtrip_error q' _ h1 h2 hv01.1 hv01.2 (cutoff_normalised_error q' h1 h2)⟩
    show Parameter.convertFrom0to1 _ (param.convertTo0to1 _) = _
    rw [hval]
    unfold Parameter.convertFrom0to1 NormalisableRange.snapToLegalValue
    show jlimit param.range.start param.range.stop (param.range.convertFrom0to1 _) = _
    rw [hrange]
    simp only
    rw [jlimit_finite, clampRat_of_mem 0 1 _ hv01.1 hv01.2,
      cutoff_convertFrom0to1 _ hv01.1 hv01.2, jlimit_finite]

/-- Witness for C9 (as the code behaves): on the parameters of
`createParameterLayout`, `setFilterCutoff (440)` publishes a finite value in
[0, 1] within `2 ^ (-22)` of `(440 - 20) / 19980`. -/
theorem setFilterCutoff_publishes_rounded_witness :
    ∃ (p : Parameter) (v : ℚ),
      getParameter (setFilterCutoff createParameterLayout (F32.finite 440)) "filterCutoff"
        = some p ∧
      p.value = F32.finite v ∧ 0 ≤ v ∧ v ≤ 1 ∧ |v - (440 - 20) / 19980| ≤ 1 / 2 ^ 22 := by
  have hget : getParameter createParameterLayout "filterCutoff"
      = some (makeParameter "filterCutoff" (F32.finite 20) (F32.finite 20000)
          (F32.finite 2000)) := by
    simp [getParameter, createParameterLayout, makeParameter]
  obtain ⟨p, v, hp, _, _, hv, h0, h1, _, _, hin⟩ :=
    setFilterCutoff_publishes_rounded createParameterLayout _ (F32.finite 440) hget rfl
      (by simp)
  exact ⟨p, v, hp, hv, h0, h1, (hin 440 rfl (by norm_num) (by norm_num)).2.1⟩

/-- C9 (as stated) fails. On the parameters of `createParameterLayout`:
`setFilterCutoff (440)` publishes 11285575 / 536870912, the `float` nearest to
`(440 - 20) / 19980 = 7 / 333` and not that number; for the in-range `float`
cutoff 14437144 / 65536 (about 220.29333) converting the published value back
gives 14437143 / 65536, one unit in the last place below the cutoff; and
`setFilterCutoff (NaN)` publishes NaN, which is no value in [0, 1], because
both comparisons of `jlimit` are false on NaN. -/
theorem setFilterCutoff_publishes_inexact :
    (getParameter (setFilterCutoff createParameterLayout (F32.finite 440)) "filterCutoff").map
        Parameter.value = some (F32.finite (11285575 / 536870912)) ∧
    (11285575 / 536870912 : ℚ) ≠ (440 - 20) / 19980 ∧
    F32.ofRat (14437144 / 65536) = F32.finite (14437144 / 65536) ∧
    (getParameter (setFilterCutoff createParameterLayout (F32.finite (14437144 / 65536)))
        "filterCutoff").map (fun p => p.convertFrom0to1 p.value)
      = some (F32.finite (14437143 / 65536)) ∧
    (getParameter (setFilterCutoff createParameterLayout F32.nan) "filterCutoff").map
        Parameter.value = some F32.nan := by
  have hget : getParameter createParameterLayout "filterCutoff"
      = some (makeParameter "filterCutoff" (F32.finite 20) (F32.finite 20000)
          (F32.finite 2000)) := by
    simp [getParameter, createParameterLayout, makeParameter]
  refine ⟨?_, by norm_num, ?_, ?_, ?_⟩
  · rw [setFilterCutoff_stores createParameterLayout _ (F32.finite 440) hget]
    simp only [Option.map_some', Parameter.setValueNotifyingHost]
    rw [cutoff_published _ rfl 440 (by norm_num) (by norm_num)]
    have h420 : F32.roundRat (440 - 20) = 420 := by
      rw [roundRat_eq (440 - 20) 8 13762560 (by norm_num) (by norm_num) (by norm_num)]
      norm_num
    have hq : F32.roundRat ((420 : ℚ) / 19980) = 11285575 / 536870912 := by
      rw [roundRat_eq (420 / 19980) (-6) 11285575 (by norm_num [abs_of_pos])
        (by norm_num [abs_of_pos]) (by norm_num [abs_lt])]
      norm_num
    rw [h420, hq, clampRat_of_mem 0 1 (11285575 / 536870912) (by norm_num) (by norm_num)]
  · rw [ofRat_eq_finite _ (by norm_num [abs_of_pos]),
      roundRat_eq (14437144 / 65536) 7 14437144 (by norm_num [abs_of_pos])
        (by norm_num [abs_of_pos]) (by norm_num)]
    norm_num
  · rw [setFilterCutoff_stores createParameterLayout _ (F32.finite (14437144 / 65536)) hget]
    simp only [Option.map_some']
    rw [cutoff_published _ rfl (14437144 / 65536) (by norm_num) (by norm_num)]
    have ha : F32.roundRat ((14437144 : ℚ) / 65536 - 20) = 13126424 / 65536 := by
      rw [roundRat_eq (14437144 / 65536 - 20) 7 13126424 (by norm_num [abs_of_pos])
        (by norm_num [abs_of_pos]) (by norm_num)]
      norm_num
    have hv : F32.roundRat ((13126424 : ℚ) / 65536 / 19980) = 10763930 / 1073741824 := by
      rw [roundRat_eq (13126424 / 65536 / 19980) (-7) 10763930 (by norm_num [abs_of_pos])
        (by norm_num [abs_of_pos]) (by norm_num [abs_lt])]
      norm_num
    rw [ha, hv, clampRat_of_mem 0 1 (10763930 / 1073741824) (by norm_num) (by norm_num)]
    show some ((Parameter.setValueNotifyingHost _ (F32.finite (10763930 / 1073741824))).convertFrom0to1
      (F32.finite (10763930 / 1073741824))) = _
    rw [cutoff_converted_back
      (makeParameter "filterCutoff" (F32.finite 20) (F32.finite 20000) (F32.finite 2000)) rfl
      (10763930 / 1073741824) (by norm_num) (by norm_num)]
    have hw : F32.roundRat (19980 * ((10763930 : ℚ) / 1073741824)) = 13126423 / 65536 := by
      rw [roundRat_eq (19980 * (10763930 / 1073741824)) 7 13126423 (by norm_num [abs_of_pos])
        (by norm_num [abs_of_pos]) (by norm_num [abs_lt])]
      norm_num
    have hz : F32.roundRat (20 + (13126423 : ℚ) / 65536) = 14437143 / 65536 := by
      rw [roundRat_eq (20 + 13126423 / 65536) 7 14437143 (by norm_num [abs_of_pos])
        (by norm_num [abs_of_pos]) (by norm_num)]
      norm_num
    rw [hw, hz, clampRat_of_mem 20 20000 (14437143 / 65536) (by norm_num) (by norm_num)]
  · rw [setFilterCutoff_stores createParameterLayout _ F32.nan hget]
    simp only [Option.map_some', Parameter.setValueNotifyingHost]
    rw [jlimit_nan, convertTo0to1_nan]

/-! ## Properties of the effects stage -/

/-- C10 fails on the code for three channels: the stereo loop of `applyDSP`
runs for `channel = 0` and `channel = 2`, so `getWritePointer` is called with
0, 1, 2 and 3, and index 3 is not below the channel count 3. -/
theorem applyDSP_reverb_overrun_three_channels :
    applyDSPWritePointers 3 = [0, 1, 2, 3] ∧
    (3 ∈ applyDSPWritePointers 3) ∧
    ¬ ∀ c ∈ applyDSPWritePointers 3, c < 3 := by
  have h : applyDSPWritePointers 3 = [0, 1, 2, 3] := by
    unfold applyDSPWritePointers
    rw [if_pos (by decide), reverbStereoLoop, if_pos (by decide), reverbStereoLoop,
      if_pos (by decide), reverbStereoLoop, if_neg (by decide)]
  refine ⟨h, by rw [h]; decide, ?_⟩
  rw [h]
  decide

end AmbientSynth
